import Mathlib

/-!
# Verification of the PyBoAtSim dynamics-and-integration engine

Shallow embedding of `src/pyboatsim/boatsim.py` (the `BoAtSim` driver and
integrator) and `src/pyboatsim/dynamics/buoyancy.py` (the `MeshBuoyancy`
force generator), with theorems settling the specification claims.

Python floats are modelled as rationals (`ℚ`); the labelled state is a
partial map from label strings to rationals; operations that can raise are
embedded in `Except Err`.  NumPy column matrices become `Fin n → ℚ`
vectors, NumPy/trimesh 4x4 homogeneous matrices become
`Matrix (Fin 4) (Fin 4) ℚ`, and trimesh's `transform_points` is embedded
exactly as the library computes it: multiply the homogeneous matrix by
`[p; 1]` and keep the first three components (no perspective division).
The external geometry slicing primitive (`trimesh.Trimesh.slice_plane`)
and the axis-angle rotation constructor
(`trimesh.transformations.rotation_matrix`, whose entries are
trigonometric and hence not rational) are taken as parameters.
-/

namespace PyBoAtSim

/-- Errors surfaced by the engine.  `missingKey` models the
`MissingKeyError`/`KeyError` raised by the labelled state on an absent
label, `missingLabels` the aggregated `ValueError` of
`BoAtSim.simulate`'s pre-step validation, `degenerateSlice` the
`ValueError` of `MeshBuoyancy` when a non-empty slice is not watertight,
`singularMassMatrix` the `numpy.linalg.LinAlgError` of a singular solve,
and `emptyHistory` the `ValueError` guard in `BoAtSim.step`. -/
inductive Err where
  | missingKey (k : String)
  | missingLabels (ls : List String)
  | degenerateSlice
  | singularMassMatrix
  | emptyHistory
  deriving DecidableEq

/-- Modelled from the spec: `pyboatsim/state.py` is not under `src/`.
`State` is a mapping from label strings to scalars (spec section 4.1);
we model it as a partial function from `String` to `ℚ`. -/
def AState : Type := String → Option ℚ

/-- Modelled from the spec: `State.__setitem__` / one key of
`State.set` — write one label, overwriting an existing value and never
removing other keys. -/
def upd (s : AState) (k : String) (v : ℚ) : AState :=
  fun k' => if k' = k then some v else s k'

/-- Modelled from the spec: `State.set(partial_state_dictionary)` merges
the given keys into the state. -/
def setPairs (s : AState) (ps : List (String × ℚ)) : AState :=
  ps.foldl (fun t p => upd t p.1 p.2) s

/-- An `AState` holding exactly the given labels. -/
def ofPairs (ps : List (String × ℚ)) : AState :=
  setPairs (fun _ => none) ps

/-- Modelled from the spec: `State.__getitem__` — fails with a
missing-key error if the label is absent (spec section 4.1). -/
def getE (s : AState) (k : String) : Except Err ℚ :=
  match s k with
  | some v => Except.ok v
  | none => Except.error (Err.missingKey k)

/-- Modelled from the spec: `pyboatsim/constants.py` is not under
`src/`; `AXES` is the list of the three coordinate axis names used to
build per-axis labels such as `r_x__boat` (spec section 4.1 and the
explicit `c_x__boat`, `c_y__boat`, `c_z__boat` reads in
`buoyancy.py`). -/
def AXES : List String := ["x", "y", "z"]

/-! ## Label builders (the f-strings used throughout `boatsim.py` and
`buoyancy.py`) -/

def rKey (ax : String) : String := "r_" ++ ax ++ "__boat"
def vKey (ax : String) : String := "v_" ++ ax ++ "__boat"
def aKey (ax : String) : String := "a_" ++ ax ++ "__boat"
def thetaKey (ax : String) : String := "theta_" ++ ax ++ "__boat"
def omegaKey (ax : String) : String := "omega_" ++ ax ++ "__boat"
def alphaKey (ax : String) : String := "alpha_" ++ ax ++ "__boat"
def cKey (ax : String) : String := "c_" ++ ax ++ "__boat"
def iKey (a b : String) : String := "I_" ++ a ++ b ++ "__boat"
def fKey (ax n : String) : String := "f_" ++ ax ++ "__" ++ n
def tauKey (ax n : String) : String := "tau_" ++ ax ++ "__" ++ n
def fTotKey (ax : String) : String := "f_" ++ ax ++ "__total"
def tauTotKey (ax : String) : String := "tau_" ++ ax ++ "__total"

/-! ## Vectors and matrices -/

abbrev V3 : Type := Fin 3 → ℚ
abbrev M3 : Type := Matrix (Fin 3) (Fin 3) ℚ
abbrev M4 : Type := Matrix (Fin 4) (Fin 4) ℚ
abbrev M6 : Type := Matrix (Fin 6) (Fin 6) ℚ

/-- Embeds `numpy.cross` on 3-vectors. -/
def cross (a b : V3) : V3 :=
  ![a 1 * b 2 - a 2 * b 1, a 2 * b 0 - a 0 * b 2, a 0 * b 1 - a 1 * b 0]

/-- Modelled from the spec: `pyboatsim/math/linalg.py` is not under
`src/`.  `cross_product_matrix w` is the skew-symmetric matrix with
`cross_product_matrix w ⬝ v = w × v`, used for the gyroscopic bias term
`ω × (I_cm · ω)` (spec section 4.4). -/
def cross_product_matrix (w : V3) : M3 :=
  !![0, -w 2, w 1; w 2, 0, -w 0; -w 1, w 0, 0]

/-- Embeds `numpy.block([[tl, tr], [bl, br]])` for 3x3 blocks. -/
def block66 (tl tr bl br : M3) : M6 :=
  Matrix.of fun i j =>
    if hi : (i : ℕ) < 3 then
      if hj : (j : ℕ) < 3 then tl ⟨i, hi⟩ ⟨j, hj⟩
      else tr ⟨i, hi⟩ ⟨(j : ℕ) - 3, by omega⟩
    else
      if hj : (j : ℕ) < 3 then bl ⟨(i : ℕ) - 3, by omega⟩ ⟨j, hj⟩
      else br ⟨(i : ℕ) - 3, by omega⟩ ⟨(j : ℕ) - 3, by omega⟩

/-- Embeds `numpy.block([[u], [v]])` for 3x1 blocks (column 6-vector). -/
def vcat6 (u v : V3) : Fin 6 → ℚ :=
  fun i =>
    if hi : (i : ℕ) < 3 then u ⟨i, hi⟩ else v ⟨(i : ℕ) - 3, by omega⟩

/-- Embeds `numpy.linalg.inv`: fails on a singular matrix (raising what the
spec calls `SingularMassMatrixError`), otherwise returns the inverse,
written as the adjugate scaled by the inverse determinant. -/
def npLinalgInv (A : M6) : Except Err M6 :=
  if A.det = 0 then Except.error Err.singularMassMatrix
  else Except.ok (A.det⁻¹ • A.adjugate)

/-! ## `BoAtSim` (src/pyboatsim/boatsim.py) -/

/-- The integrator's own required labels, as assembled in
`BoAtSim.__init__` (note: only the diagonal inertia labels appear
here). -/
def requiredLabels : List String :=
  (AXES.map rKey) ++ (AXES.map vKey) ++ (AXES.map aKey) ++
    (AXES.map thetaKey) ++ (AXES.map omegaKey) ++ (AXES.map alphaKey) ++
    ["m__boat"] ++ (AXES.map fun ax => iKey ax ax) ++ (AXES.map cKey) ++
    ["t"]

/-- Embeds `BoAtSim._compute_accelerations` (boatsim.py lines 54-101).
Reads total force and torque, angular velocity, the full 3x3 inertia
tensor, mass and centre-of-mass offset; assembles the block-diagonal
6x6 mass matrix `A` and the bias `B = [0; ω×(I_cm·ω)]`; solves by
matrix inversion, and writes the six acceleration labels.

The Python expression `np.linalg.inv(A)*(FT - B)` multiplies a plain
`ndarray` by a `numpy.matrix` (the `np.block` of `np.matrix` columns
keeps the highest-`__array_priority__` subclass), so `*` dispatches to
`numpy.matrix.__rmul__` and is a true matrix-vector product. -/
def computeAccelerations (s : AState) : Except Err AState := do
  let Fx ← getE s (fTotKey "x"); let Fy ← getE s (fTotKey "y")
  let Fz ← getE s (fTotKey "z")
  let Tx ← getE s (tauTotKey "x"); let Ty ← getE s (tauTotKey "y")
  let Tz ← getE s (tauTotKey "z")
  let FT : Fin 6 → ℚ := vcat6 ![Fx, Fy, Fz] ![Tx, Ty, Tz]
  let wx ← getE s (omegaKey "x"); let wy ← getE s (omegaKey "y")
  let wz ← getE s (omegaKey "z")
  let w : V3 := ![wx, wy, wz]
  let w_x : M3 := cross_product_matrix w
  let Ixx ← getE s (iKey "x" "x"); let Ixy ← getE s (iKey "x" "y")
  let Ixz ← getE s (iKey "x" "z")
  let Iyx ← getE s (iKey "y" "x"); let Iyy ← getE s (iKey "y" "y")
  let Iyz ← getE s (iKey "y" "z")
  let Izx ← getE s (iKey "z" "x"); let Izy ← getE s (iKey "z" "y")
  let Izz ← getE s (iKey "z" "z")
  let I_cm : M3 := !![Ixx, Ixy, Ixz; Iyx, Iyy, Iyz; Izx, Izy, Izz]
  let m ← getE s "m__boat"
  let _cx ← getE s (cKey "x"); let _cy ← getE s (cKey "y")
  let _cz ← getE s (cKey "z")
  let A : M6 := block66 (m • (1 : M3)) 0 0 I_cm
  let B : Fin 6 → ℚ := vcat6 ![0, 0, 0] ((w_x * I_cm).mulVec w)
  let invA ← npLinalgInv A
  let acc : Fin 6 → ℚ := invA.mulVec (FT - B)
  pure (setPairs s
    [(aKey "x", acc 0), (alphaKey "x", acc 3),
     (aKey "y", acc 1), (alphaKey "y", acc 4),
     (aKey "z", acc 2), (alphaKey "z", acc 5)])

/-- Python's `sum` over the looked-up contribution labels: a left fold
starting from `0`; any absent label raises. -/
def sumE (s : AState) (keys : List String) : Except Err ℚ :=
  keys.foldlM (fun acc k => do
    let v ← getE s k
    pure (acc + v)) 0

/-- One axis of the total-aggregation loop in `BoAtSim.step`
(boatsim.py lines 112-124): sum the `f_` and `tau_` contribution labels
of all generator names and merge the two `__total` labels. -/
def totalsAxis (names : List String) (s : AState) (ax : String) :
    Except Err AState := do
  let f ← sumE s (names.map (fKey ax))
  let tau ← sumE s (names.map (tauKey ax))
  pure (setPairs s [(fTotKey ax, f), (tauTotKey ax, tau)])

/-- The full total-aggregation loop over the three axes. -/
def computeTotals (names : List String) (s : AState) : Except Err AState :=
  AXES.foldlM (totalsAxis names) s

/-- One axis of the kinematic update loop in `BoAtSim.step`
(boatsim.py lines 138-153).  `s` is `self.state` (the snapshot just
appended to history), `hist` is the history after that append, `next`
is the accumulating `next_state`.  With exactly one history entry this
is the forward-Euler bootstrap via augmented assignments (which read
the target label first); otherwise it is the central-difference update
against `history[-2]`. -/
def perAxis (s : AState) (hist : List AState) (dt : ℚ) (next : AState)
    (ax : String) : Except Err AState := do
  if hist.length = 1 then
    let r0 ← getE next (rKey ax)
    let sv ← getE s (vKey ax)
    let na ← getE next (aKey ax)
    let next := upd next (rKey ax) (r0 + (sv * dt + 1/2 * na * dt ^ 2))
    let th0 ← getE next (thetaKey ax)
    let sw ← getE s (omegaKey ax)
    let nal ← getE next (alphaKey ax)
    let next := upd next (thetaKey ax) (th0 + (sw * dt + 1/2 * nal * dt ^ 2))
    let v0 ← getE next (vKey ax)
    let sa ← getE s (aKey ax)
    let next := upd next (vKey ax) (v0 + sa * dt)
    let w0 ← getE next (omegaKey ax)
    let sal ← getE s (alphaKey ax)
    pure (upd next (omegaKey ax) (w0 + sal * dt))
  else
    let xPrev : AState := hist.getD (hist.length - 2) (fun _ => none)
    let sr ← getE s (rKey ax)
    let pr ← getE xPrev (rKey ax)
    let sa ← getE s (aKey ax)
    let next := upd next (rKey ax) (2 * sr - pr + sa * dt ^ 2)
    let sth ← getE s (thetaKey ax)
    let pth ← getE xPrev (thetaKey ax)
    let sal ← getE s (alphaKey ax)
    let next := upd next (thetaKey ax) (2 * sth - pth + sal * dt ^ 2)
    let nr ← getE next (rKey ax)
    let next := upd next (vKey ax) ((nr - pr) / (2 * dt))
    let nth ← getE next (thetaKey ax)
    pure (upd next (omegaKey ax) ((nth - pth) / (2 * dt)))

/-- The kinematic update of `BoAtSim.step` (boatsim.py lines 137-153):
the empty-history guard followed by the per-axis loop, starting from
`next_state = self.state.copy()`. -/
def integrateAxes (s : AState) (hist : List AState) (dt : ℚ) :
    Except Err AState := do
  if hist.length < 1 then throw Err.emptyHistory
  else AXES.foldlM (perAxis s hist dt) s

/-- A force generator as the driver sees it: a name together with the
`apply`/`compute_dynamics` operation. -/
def DynFn : Type := AState → ℚ → Except Err AState

/-- The simulation driver: one labelled state, the history of appended
snapshots, and the ordered generator list. -/
structure Sim where
  state : AState
  history : List AState
  dynamics : List (String × DynFn)

/-- Embeds `BoAtSim.step` (boatsim.py lines 103-158): apply each generator in
order, aggregate totals, solve for accelerations, append the resulting
state to history, and build the next state by the two-branch kinematic
update, finally advancing `t` by `dt`. -/
def Sim.step (sim : Sim) (dt : ℚ) : Except Err Sim := do
  let s0 ← sim.dynamics.foldlM (fun st d => d.2 st dt) sim.state
  let s1 ← computeTotals (sim.dynamics.map Prod.fst) s0
  let s2 ← computeAccelerations s1
  let hist := sim.history ++ [s2]
  let next ← integrateAxes s2 hist dt
  let tv ← getE next "t"
  pure ⟨upd next "t" (tv + dt), hist, sim.dynamics⟩

/-- Runs `n` sequential `step` calls. -/
def stepN (sim : Sim) (n : ℕ) (dt : ℚ) : Except Err Sim :=
  match n with
  | 0 => Except.ok sim
  | Nat.succ k => do
      let s ← sim.step dt
      stepN s k dt

/-- The number of loop iterations of `BoAtSim.simulate`:
`range(int(delta_t//dt+1))`, i.e. the floor of the quotient plus one
(clamped at zero, as `range` of a negative bound is empty). -/
def numSimulateSteps (delta_t dt : ℚ) : ℕ :=
  (⌊delta_t / dt⌋ + 1).toNat

/-- The pre-step validation of `BoAtSim.simulate` (boatsim.py lines
166-169): the integrator's own required labels absent from the state,
in declaration order. -/
def Sim.simulateMissing (sim : Sim) : List String :=
  requiredLabels.filter (fun l => sim.state l = none)

/-- Embeds `BoAtSim.simulate` (boatsim.py lines 160-180): fail with the full
list of missing integrator labels before any step, otherwise run
`int(delta_t//dt+1)` sequential steps. -/
def Sim.simulate (sim : Sim) (delta_t dt : ℚ) : Except Err Sim :=
  if sim.simulateMissing ≠ [] then
    Except.error (Err.missingLabels sim.simulateMissing)
  else stepN sim (numSimulateSteps delta_t dt) dt

/-! ## `MeshBuoyancy` (src/pyboatsim/dynamics/buoyancy.py)

The trimesh mesh is modelled by its vertex list; faces play no role in
the claims.  `trimesh.Trimesh.slice_plane` together with the
volume/centroid/watertightness queries on its result is the external
geometry-provider capability (spec sections 1 and 6) and is a parameter
`slicePlane` of the embedding; its result is summarised by a
`MeshData`. -/

/-- The queries `buoyancy.py` makes of the sliced mesh: emptiness,
watertightness, volume and volumetric centroid (`center_mass`). -/
structure MeshData where
  isEmpty : Bool
  isWatertight : Bool
  volume : ℚ
  centerMass : V3
  deriving DecidableEq

/-- A mesh as its vertex list. -/
abbrev Mesh : Type := List V3

/-- The external plane-slicing primitive: mesh, `plane_origin`,
`plane_normal`, `cap`. -/
abbrev SlicePlaneFn : Type := Mesh → V3 → V3 → Bool → MeshData

/-- The external axis-angle rotation constructor
`trimesh.transformations.rotation_matrix(angle=|theta|,
direction=theta/|theta|)`, abstracted as the 3x3 rotation block it
produces for the full axis-angle vector. -/
abbrev RotOfFn : Type := V3 → M3

/-- Embeds `trimesh.transformations.translation_matrix(direction=d)`: the 4x4
identity with `d` in the last column. -/
def translation_matrix (d : V3) : M4 :=
  !![1, 0, 0, d 0; 0, 1, 0, d 1; 0, 0, 1, d 2; 0, 0, 0, 1]

/-- A 4x4 homogeneous matrix with the given rotation block and zero
translation, as `trimesh.transformations.rotation_matrix` returns
(about the origin). -/
def rotation4 (R : M3) : M4 :=
  !![R 0 0, R 0 1, R 0 2, 0;
     R 1 0, R 1 1, R 1 2, 0;
     R 2 0, R 2 1, R 2 2, 0;
     0, 0, 0, 1]

/-- Embeds `trimesh.transformations.transform_points` on one point: multiply
the 4x4 matrix by the homogeneous column `[p; 1]` and keep the first
three components.  There is no perspective division, so a
non-homogeneous matrix (such as the negation of a translation matrix)
is applied linearly exactly as written. -/
def transformPoint (M : M4) (p : V3) : V3 :=
  ![M.mulVec ![p 0, p 1, p 2, 1] 0,
    M.mulVec ![p 0, p 1, p 2, 1] 1,
    M.mulVec ![p 0, p 1, p 2, 1] 2]

/-- Embeds `trimesh.Trimesh.apply_transform` on the vertex list. -/
def applyTransform (M : M4) (mesh : Mesh) : Mesh :=
  mesh.map (transformPoint M)

/-- Squared Euclidean norm.  The source guard
`np.linalg.norm(theta) <= EPSILON` is embedded as
`normSq theta ≤ EPSILON ^ 2`, which is equivalent for the nonnegative
`EPSILON` of the source since both sides of the original comparison are
nonnegative. -/
def normSq (v : V3) : ℚ := v 0 ^ 2 + v 1 ^ 2 + v 2 ^ 2

/-- The `rotation_matrix` local of `MeshBuoyancy.compute_dynamics`
(buoyancy.py lines 55-61): the 4x4 identity when `|theta|` is within
`EPSILON` of zero, otherwise the axis-angle rotation about
`theta/|theta|` by `|theta|`.  `eps` stands for
`pyboatsim.constants.EPSILON` (not under `src/`). -/
def rotSelect (eps : ℚ) (rotOf : RotOfFn) (theta : V3) : M4 :=
  if normSq theta ≤ eps ^ 2 then (1 : M4) else rotation4 (rotOf theta)

/-- The mesh placement of `MeshBuoyancy.compute_dynamics` (buoyancy.py
lines 47-69) given the already-selected 4x4 `rotation_matrix`: apply
the negated centre-of-mass translation matrix (the unary minus negates
every entry of the 4x4 array), then the concatenation
`translation_matrix(r) @ rotation_matrix`, then the centre-of-mass
translation matrix. -/
def placeMesh (rotM4 : M4) (r c : V3) (mesh : Mesh) : Mesh :=
  applyTransform (translation_matrix c)
    (applyTransform (translation_matrix r * rotM4)
      (applyTransform (-(translation_matrix c)) mesh))

/-- Embeds `MeshBuoyancy.required_state_labels` (buoyancy.py lines 29-38). -/
def requiredStateLabels : List String :=
  ["r_z__water"] ++ (AXES.map rKey) ++ (AXES.map thetaKey) ++
    ["rho__water"]

/-- Embeds `MeshBuoyancy.compute_dynamics` (buoyancy.py lines 40-116) for a
generator named `name` over base mesh `baseMesh`: read orientation,
position and centre-of-mass offset; place a copy of the mesh in world
coordinates; slice it by the plane through `(0,0,0)` with normal
`(0,0,-1)` requesting a capped result; then either record zero
force/torque/volume (empty slice), fail on a non-watertight slice, or
compute the buoyant force at the submerged centroid, rotate it back to
the body frame, and take the torque about the centre of mass; finally
write the per-axis `f_`/`tau_` contribution labels. -/
def computeDynamics (slicePlane : SlicePlaneFn) (eps : ℚ)
    (rotOf : RotOfFn) (baseMesh : Mesh) (name : String) (s : AState)
    (_dt : ℚ) : Except Err AState := do
  let thx ← getE s (thetaKey "x"); let thy ← getE s (thetaKey "y")
  let thz ← getE s (thetaKey "z")
  let rx ← getE s (rKey "x"); let ry ← getE s (rKey "y")
  let rz ← getE s (rKey "z")
  let cx ← getE s (cKey "x"); let cy ← getE s (cKey "y")
  let cz ← getE s (cKey "z")
  let theta : V3 := ![thx, thy, thz]
  let r : V3 := ![rx, ry, rz]
  let c : V3 := ![cx, cy, cz]
  let rotM4 : M4 := rotSelect eps rotOf theta
  let transformed : Mesh := placeMesh rotM4 r c baseMesh
  let submerged : MeshData := slicePlane transformed ![0, 0, 0] ![0, 0, -1] true
  let cmx ← getE s (cKey "x"); let cmy ← getE s (cKey "y")
  let cmz ← getE s (cKey "z")
  let c_m : V3 := ![cmx, cmy, cmz]
  if submerged.isEmpty then
    let s := upd s (name ++ "__submerged_volume") 0
    let force__worldframe : V3 := ![0, 0, 0]
    let torque__comframe : V3 := ![0, 0, 0]
    pure (setPairs s
      [(fKey "x" name, force__worldframe 0),
       (tauKey "x" name, torque__comframe 0),
       (fKey "y" name, force__worldframe 1),
       (tauKey "y" name, torque__comframe 1),
       (fKey "z" name, force__worldframe 2),
       (tauKey "z" name, torque__comframe 2)])
  else
    if !submerged.isWatertight then throw Err.degenerateSlice
    else
      let water_volume := submerged.volume
      let s := upd s (name ++ "__submerged_volume") water_volume
      let rho ← getE s "rho__water"
      let water_mass := water_volume * rho
      let force__worldframe : V3 := ![0, 0, water_mass * (981/100)]
      let point_of_application__worldframe : V3 := submerged.centerMass
      let rT : M3 := (rotM4.transpose).submatrix
        (Fin.castLE (by omega)) (Fin.castLE (by omega))
      let force__bodyframe : V3 := rT.mulVec force__worldframe
      let force__comframe : V3 := force__bodyframe
      let point_of_application__bodyframe : V3 :=
        rT.mulVec (point_of_application__worldframe - r)
      let point_of_application__comframe : V3 :=
        point_of_application__bodyframe - c_m
      let torque__comframe : V3 :=
        cross point_of_application__comframe force__comframe
      pure (setPairs s
        [(fKey "x" name, force__worldframe 0),
         (tauKey "x" name, torque__comframe 0),
         (fKey "y" name, force__worldframe 1),
         (tauKey "y" name, torque__comframe 1),
         (fKey "z" name, force__worldframe 2),
         (tauKey "z" name, torque__comframe 2)])

/-! ## Statement-side definitions and concrete witness states -/

/-- All integrator-required labels, each bound to `0`. -/
def fullIntegratorState : AState :=
  ofPairs (requiredLabels.map (fun l => (l, 0)))

/-- A trivial geometry provider whose every slice is the empty mesh. -/
def emptySliceFn : SlicePlaneFn := fun _ _ _ _ => MeshData.mk true true 0 ![0, 0, 0]

/-- A simulation holding a `MeshBuoyancy` generator named `buoyancy`,
whose initial state has every integrator-required label but omits the
generator-required `rho__water`. -/
def simNoRho : Sim :=
  ⟨fullIntegratorState, [],
    [("buoyancy", computeDynamics emptySliceFn 0 (fun _ => 1) [] "buoyancy")]⟩

/-- A simulation whose state has only the time label. -/
def simOnlyT : Sim := ⟨ofPairs [("t", 0)], [], []⟩

/-- A generator-free simulation over the full integrator state. -/
def simFull : Sim := ⟨fullIntegratorState, [], []⟩

/-- The generalized mass matrix of the claim: block diagonal of `m·I₃`
and `I_cm`, with the centre-of-mass coupling blocks exactly zero. -/
def massMatrix (m : ℚ) (I_cm : M3) : M6 := block66 (m • (1 : M3)) 0 0 I_cm

/-- The gyroscopic bias vector of the claim: `[0; ω × (I_cm·ω)]`. -/
def biasVec (w : V3) (I_cm : M3) : Fin 6 → ℚ :=
  vcat6 ![0, 0, 0] (cross w (I_cm.mulVec w))

/-- A state carrying the 22 labels `_compute_accelerations` reads, with
unit mass and identity inertia tensor. -/
def c4State : AState :=
  ofPairs
    [(fTotKey "x", 0), (fTotKey "y", 0), (fTotKey "z", 0),
     (tauTotKey "x", 0), (tauTotKey "y", 0), (tauTotKey "z", 0),
     (omegaKey "x", 0), (omegaKey "y", 0), (omegaKey "z", 0),
     (iKey "x" "x", 1), (iKey "x" "y", 0), (iKey "x" "z", 0),
     (iKey "y" "x", 0), (iKey "y" "y", 1), (iKey "y" "z", 0),
     (iKey "z" "x", 0), (iKey "z" "y", 0), (iKey "z" "z", 1),
     ("m__boat", 1), (cKey "x", 0), (cKey "y", 0), (cKey "z", 0)]

/-- A state holding zero orientation, position and centre-of-mass
offset — the nine labels `MeshBuoyancy.compute_dynamics` reads before
slicing. -/
def buoyInState : AState :=
  ofPairs
    [(thetaKey "x", 0), (thetaKey "y", 0), (thetaKey "z", 0),
     (rKey "x", 0), (rKey "y", 0), (rKey "z", 0),
     (cKey "x", 0), (cKey "y", 0), (cKey "z", 0)]

/-- The state `MeshBuoyancy` produces from `buoyInState` under the
empty-slice provider. -/
def c8OutState : AState :=
  match computeDynamics emptySliceFn 0 (fun _ => 1) [] "buoyancy"
      buoyInState 1 with
  | Except.ok t => t
  | Except.error _ => fun _ => none

/-- The per-axis force total computed by the driver: Python's
`sum([state[f_{axis}__{name}] for name in names])`. -/
def sumF (s : AState) (ax : String) (names : List String) : ℚ :=
  (names.map (fun n => (s (fKey ax n)).getD 0)).foldl (fun a b => a + b) 0

/-- The per-axis torque total computed by the driver. -/
def sumT (s : AState) (ax : String) (names : List String) : ℚ :=
  (names.map (fun n => (s (tauKey ax n)).getD 0)).foldl (fun a b => a + b) 0

/-- The state produced by the driver's full three-axis aggregation,
with every total computed from the pre-aggregation state `s`. -/
def totalsOut (s : AState) (names : List String) : AState :=
  setPairs
    (setPairs
      (setPairs s
        [(fTotKey "x", sumF s "x" names), (tauTotKey "x", sumT s "x" names)])
      [(fTotKey "y", sumF s "y" names), (tauTotKey "y", sumT s "y" names)])
    [(fTotKey "z", sumF s "z" names), (tauTotKey "z", sumT s "z" names)]

/-- A state holding the six contribution labels of a generator named
`g`. -/
def c9State : AState :=
  ofPairs
    [(fKey "x" "g", 1), (fKey "y" "g", 2), (fKey "z" "g", 3),
     (tauKey "x" "g", 4), (tauKey "y" "g", 5), (tauKey "z" "g", 6)]

/-- A state carrying the eighteen kinematic labels, all zero. -/
def c3State : AState :=
  ofPairs
    [(rKey "x", 0), (rKey "y", 0), (rKey "z", 0),
     (vKey "x", 0), (vKey "y", 0), (vKey "z", 0),
     (aKey "x", 0), (aKey "y", 0), (aKey "z", 0),
     (thetaKey "x", 0), (thetaKey "y", 0), (thetaKey "z", 0),
     (omegaKey "x", 0), (omegaKey "y", 0), (omegaKey "z", 0),
     (alphaKey "x", 0), (alphaKey "y", 0), (alphaKey "z", 0)]

/-- The next state produced by the kinematic update from `c3State` with
a one-entry history. -/
def c3Next : AState :=
  match integrateAxes c3State [c3State] 1 with
  | Except.ok t => t
  | Except.error _ => fun _ => none

/-- A state holding exactly the labels `MeshBuoyancy` declares in
`required_state_labels`, each bound to `0`. -/
def declaredOnlyState : AState :=
  ofPairs (requiredStateLabels.map (fun l => (l, 0)))

/-! ## Helper lemmas -/

lemma bindE_ok {α β : Type} {x : Except Err α} {f : α → Except Err β}
    {b : β} :
    (x >>= f) = Except.ok b ↔ ∃ a, x = Except.ok a ∧ f a = Except.ok b := by
  cases x <;> simp [Bind.bind, Except.bind]

lemma upd_apply (s : AState) (k : String) (v : ℚ) (k' : String) :
    upd s k v k' = if k' = k then some v else s k' := rfl

lemma upd_self (s : AState) (k : String) (v : ℚ) (h : s k = some v) :
    upd s k v = s := by
  funext k'
  by_cases hk : k' = k
  · subst hk; simp [upd_apply, h]
  · simp [upd_apply, hk]

lemma strExt {a b : String} (h : a.data = b.data) : a = b := by
  cases a; cases b; cases h; rfl

lemma strNeOfDataNe {a b : String} (h : a.data ≠ b.data) : a ≠ b :=
  fun e => h (congrArg String.data e)

lemma strNeOfLengthNe {a b : String} (h : a.length ≠ b.length) : a ≠ b :=
  fun e => h (congrArg String.length e)

/-- Two keys built by appending the same suffix to different prefixes
are distinct. -/
lemma strAppendNeRight {p q : String} (n : String)
    (h : p.data ≠ q.data) : p ++ n ≠ q ++ n := by
  intro e
  have e2 : p.data ++ n.data = q.data ++ n.data := by
    simpa [String.data_append] using congrArg String.data e
  exact h (List.append_cancel_right e2)

/-- Appending to a fixed prefix is injective. -/
lemma strAppendCancelLeft {p a b : String} (h : p ++ a = p ++ b) :
    a = b := by
  have e2 : p.data ++ a.data = p.data ++ b.data := by
    simpa [String.data_append] using congrArg String.data h
  exact strExt (List.append_cancel_left e2)

/-! ## Claim C1 -/

/-- Claim C1 (code bug): `MeshBuoyancy.compute_dynamics` slices the
transformed hull mesh by the plane through the fixed point `(0,0,0)`
with normal `(0,0,-1)` and `cap=True`, for every state: two geometry
providers that agree on that one fixed slicing plane produce identical
behaviour, whatever the state's `r_z__water` value is.  The claimed
plane through the world water-surface height `r_z__water` is never
queried (the label is declared in `required_state_labels` but never
read). -/
theorem C1_slice_plane_fixed (sp1 sp2 : SlicePlaneFn) (eps : ℚ)
    (rotOf : RotOfFn) (mesh : Mesh) (name : String) (s : AState) (dt : ℚ)
    (h : ∀ m : Mesh,
      sp1 m ![0, 0, 0] ![0, 0, -1] true = sp2 m ![0, 0, 0] ![0, 0, -1] true) :
    computeDynamics sp1 eps rotOf mesh name s dt =
      computeDynamics sp2 eps rotOf mesh name s dt := by
  simp only [computeDynamics, h]

/-- The C1 theorem applied to a state whose water-surface height is `1`
and to two providers that differ everywhere except on the plane of
height zero. -/
theorem C1_slice_plane_fixed_witness :
    computeDynamics (fun _ _ _ _ => MeshData.mk true true 0 ![0, 0, 0])
        0 (fun _ => 1) [] "buoyancy" (ofPairs [("r_z__water", 1)]) 1 =
      computeDynamics
        (fun _ o _ _ =>
          if o 2 = 0 then MeshData.mk true true 0 ![0, 0, 0]
          else MeshData.mk false true 1 ![0, 0, 0])
        0 (fun _ => 1) [] "buoyancy" (ofPairs [("r_z__water", 1)]) 1 :=
  C1_slice_plane_fixed _ _ 0 (fun _ => 1) [] "buoyancy"
    (ofPairs [("r_z__water", 1)]) 1 (fun m => by decide)

/-! ## Claim C2 -/

/-- The three `apply_transform` calls of
`MeshBuoyancy.compute_dynamics` compose, for a rotation block `R`, to
the point map `p ↦ R·(−p − c) + r + c`: the first call applies the
negation of the whole 4x4 translation matrix, which `transform_points`
applies linearly, sending `p` to `−p − c` (a point reflection), not to
the translate `p − c`. -/
lemma placeMesh_apply (R : M3) (r c : V3) (mesh : Mesh) :
    placeMesh (rotation4 R) r c mesh =
      mesh.map (fun p => R.mulVec (-p - c) + r + c) := by
  unfold placeMesh applyTransform
  simp only [List.map_map]
  refine List.map_congr_left (fun p _ => ?_)
  funext i
  fin_cases i <;>
    simp [transformPoint, translation_matrix, rotation4, Matrix.mulVec,
      Matrix.dotProduct, Fin.sum_univ_four, Fin.sum_univ_three,
      Matrix.mul_apply, Matrix.sub_apply, Matrix.neg_apply,
      Matrix.cons_val_zero, Matrix.cons_val_one, Matrix.head_cons,
      Matrix.cons_val_two, Matrix.cons_val_three, Matrix.vecTail,
      Matrix.vecHead] <;>
    ring

/-- Claim C2 (code bug): at zero orientation (so the rotation is the
identity, whatever `EPSILON ≥ 0` is), zero position and zero
centre-of-mass offset, the working copy of the base mesh point
`(1,0,0)` is placed at `(−1,0,0)` — the code reflects the mesh through
the origin — whereas the claimed map `R(θ)·(p − c) + r + c` would leave
it at `(1,0,0)`. -/
theorem C2_negated_translation_reflects (eps : ℚ) (rotOf : RotOfFn) :
    placeMesh (rotSelect eps rotOf ![0, 0, 0]) ![0, 0, 0] ![0, 0, 0]
        [![1, 0, 0]] = [![-1, 0, 0]] ∧
      (![-1, 0, 0] : V3) ≠ ![1, 0, 0] := by
  constructor
  · have h0 : normSq ![0, 0, 0] = (0 : ℚ) := by norm_num [normSq]
    have hz : rotSelect eps rotOf ![0, 0, 0] = 1 := by
      unfold rotSelect
      rw [if_pos (by rw [h0]; exact sq_nonneg eps)]
    have hone : (1 : M4) = rotation4 (1 : M3) := by
      ext i j
      fin_cases i <;> fin_cases j <;>
        simp [rotation4, Matrix.one_apply, Matrix.vecHead, Matrix.vecTail,
          Function.comp]
    rw [hz, hone, placeMesh_apply]
    simp only [List.map_cons, List.map_nil, Matrix.one_mulVec]
    congr 1
    funext i
    fin_cases i <;> norm_num
  · intro e
    have := congrFun e 0
    norm_num at this

/-! ## Claim C5 -/

/-- Claim C5 counterexample: the initial state of `simNoRho` omits
`rho__water`, a label required by its attached generator
(`MeshBuoyancy.required_state_labels`), yet `simulate`'s pre-step
validation finds nothing missing — it checks only the integrator's own
labels — and proceeds to step rather than failing with a report of the
missing generator label. -/
theorem C5_counterexample_generator_labels_unchecked :
    simNoRho.simulateMissing = [] ∧
      "rho__water" ∈ requiredStateLabels ∧
      simNoRho.state "rho__water" = none ∧
      simNoRho.simulate 1 1 = stepN simNoRho (numSimulateSteps 1 1) 1 := by
  refine ⟨by decide, by decide, by decide, ?_⟩
  rw [Sim.simulate, if_neg (by simp [show simNoRho.simulateMissing = [] from by decide])]

/-- Claim C5 amended: before any step executes, `simulate` validates
(only) the integrator's own required labels, failing with the complete
aggregated list of those that are missing. -/
theorem C5_amended_integrator_validation (sim : Sim) (delta_t dt : ℚ)
    (h : sim.simulateMissing ≠ []) :
    sim.simulate delta_t dt =
        Except.error (Err.missingLabels sim.simulateMissing) ∧
      ∀ l ∈ requiredLabels, sim.state l = none → l ∈ sim.simulateMissing := by
  constructor
  · rw [Sim.simulate, if_pos h]
  · intro l hl hn
    exact List.mem_filter.mpr ⟨hl, by simp [hn]⟩

/-- The C5 amended theorem applied to a state missing (among others)
`m__boat`. -/
theorem C5_amended_integrator_validation_witness :
    simOnlyT.simulate 1 1 =
        Except.error (Err.missingLabels simOnlyT.simulateMissing) ∧
      ∀ l ∈ requiredLabels, simOnlyT.state l = none →
        l ∈ simOnlyT.simulateMissing :=
  C5_amended_integrator_validation simOnlyT 1 1 (by decide)

/-! ## Claim C6 -/

/-- Claim C6 counterexample: with `delta_t = dt = 1`,
`ceil(delta_t/dt) = 1`, but `simulate` runs
`int(delta_t//dt + 1) = 2` sequential steps. -/
theorem C6_counterexample_step_count :
    simFull.simulate 1 1 = stepN simFull 2 1 ∧
      numSimulateSteps 1 1 = 2 ∧ (⌈(1 : ℚ) / 1⌉ : ℤ) = 1 := by
  refine ⟨?_, ?_, by norm_num⟩
  · rw [Sim.simulate, if_neg (by simp [show simFull.simulateMissing = [] from by decide])]
    norm_num [numSimulateSteps]
    rfl
  · norm_num [numSimulateSteps]; rfl

/-- Claim C6 amended: for `delta_t ≥ 0` and `dt > 0`, a validated
`simulate(delta_t, dt)` performs exactly `floor(delta_t/dt) + 1`
sequential `step` calls (one more than `ceil(delta_t/dt)` whenever `dt`
divides `delta_t` exactly). -/
theorem C6_amended_step_count (sim : Sim) (delta_t dt : ℚ)
    (h0 : 0 ≤ delta_t) (h1 : 0 < dt) (hv : sim.simulateMissing = []) :
    sim.simulate delta_t dt =
      stepN sim ((⌊delta_t / dt⌋).toNat + 1) dt := by
  rw [Sim.simulate, if_neg (by simp [hv])]
  have hq : (0 : ℚ) ≤ delta_t / dt := div_nonneg h0 h1.le
  have hf : (0 : ℤ) ≤ ⌊delta_t / dt⌋ := Int.floor_nonneg.mpr hq
  have : numSimulateSteps delta_t dt = (⌊delta_t / dt⌋).toNat + 1 := by
    unfold numSimulateSteps; omega
  rw [this]

/-- The C6 amended theorem applied at `delta_t = 3`, `dt = 2`. -/
theorem C6_amended_step_count_witness :
    simFull.simulate 3 2 = stepN simFull ((⌊(3 : ℚ) / 2⌋).toNat + 1) 2 :=
  C6_amended_step_count simFull 3 2 (by norm_num) (by norm_num) (by decide)

/-! ## Claim C4 -/

lemma getE_some {s : AState} {k : String} {v : ℚ} (h : s k = some v) :
    getE s k = Except.ok v := by
  simp [getE, h]

lemma getE_none {s : AState} {k : String} (h : s k = none) :
    getE s k = Except.error (Err.missingKey k) := by
  simp [getE, h]

lemma ok_bind {α β : Type} (a : α) (f : α → Except Err β) :
    (Except.ok a >>= f) = f a := rfl

/-- Two strings with different prefixes (witnessed by `List.take`) are
distinct; `rfl` computes the take even when the suffix is a
variable. -/
lemma ne_of_take {a b : String} (k : ℕ) (la lb : List Char)
    (ha : a.data.take k = la) (hb : b.data.take k = lb) (hne : la ≠ lb) :
    a ≠ b := by
  intro e; subst e; exact hne (ha.symm.trans hb)

/-- The skew matrix route `w_x @ I_cm @ w` taken by the code equals the
cross product `ω × (I_cm·ω)` of the claim. -/
lemma crossMat_mul_mulVec (w : V3) (M : M3) :
    (cross_product_matrix w * M).mulVec w = cross w (M.mulVec w) := by
  funext i
  fin_cases i <;>
    simp [cross_product_matrix, cross, Matrix.mulVec, Matrix.mul_apply,
      Matrix.dotProduct, Fin.sum_univ_three, Matrix.cons_val_zero,
      Matrix.cons_val_one, Matrix.head_cons, Matrix.cons_val_two,
      Matrix.vecHead, Matrix.vecTail, Function.comp] <;>
    ring

/-- Multiplying by the adjugate-based inverse solves the system. -/
lemma invSolve (A : M6) (h : A.det ≠ 0) (v : Fin 6 → ℚ) :
    A.mulVec ((A.det⁻¹ • A.adjugate).mulVec v) = v := by
  rw [Matrix.mulVec_mulVec]
  have hA : A * (A.det⁻¹ • A.adjugate) = 1 := by
    rw [Matrix.mul_smul, Matrix.mul_adjugate, smul_smul,
      inv_mul_cancel₀ h, one_smul]
  rw [hA, Matrix.one_mulVec]

/-- Claim C4 (confirmed): with all inputs populated,
`_compute_accelerations` solves `M·a = [F;T] − [0; ω×(I_cm·ω)]` by
inversion of the block-diagonal mass matrix (coupling blocks exactly
zero), writing the six acceleration labels with the solution; a
singular mass matrix fails the step with the singular-matrix error. -/
theorem C4_newton_euler_solve (s : AState)
    (Fx Fy Fz Tx Ty Tz wx wy wz Ixx Ixy Ixz Iyx Iyy Iyz Izx Izy Izz
      mq cx cy cz : ℚ)
    (hFx : s (fTotKey "x") = some Fx) (hFy : s (fTotKey "y") = some Fy)
    (hFz : s (fTotKey "z") = some Fz)
    (hTx : s (tauTotKey "x") = some Tx) (hTy : s (tauTotKey "y") = some Ty)
    (hTz : s (tauTotKey "z") = some Tz)
    (hwx : s (omegaKey "x") = some wx) (hwy : s (omegaKey "y") = some wy)
    (hwz : s (omegaKey "z") = some wz)
    (hIxx : s (iKey "x" "x") = some Ixx) (hIxy : s (iKey "x" "y") = some Ixy)
    (hIxz : s (iKey "x" "z") = some Ixz)
    (hIyx : s (iKey "y" "x") = some Iyx) (hIyy : s (iKey "y" "y") = some Iyy)
    (hIyz : s (iKey "y" "z") = some Iyz)
    (hIzx : s (iKey "z" "x") = some Izx) (hIzy : s (iKey "z" "y") = some Izy)
    (hIzz : s (iKey "z" "z") = some Izz)
    (hm : s "m__boat" = some mq)
    (hcx : s (cKey "x") = some cx) (hcy : s (cKey "y") = some cy)
    (hcz : s (cKey "z") = some cz) :
    ((massMatrix mq !![Ixx, Ixy, Ixz; Iyx, Iyy, Iyz; Izx, Izy, Izz]).det = 0 →
      computeAccelerations s = Except.error Err.singularMassMatrix) ∧
    ((massMatrix mq !![Ixx, Ixy, Ixz; Iyx, Iyy, Iyz; Izx, Izy, Izz]).det ≠ 0 →
      ∃ s', computeAccelerations s = Except.ok s' ∧
        ∃ acc : Fin 6 → ℚ,
          s' (aKey "x") = some (acc 0) ∧ s' (aKey "y") = some (acc 1) ∧
          s' (aKey "z") = some (acc 2) ∧
          s' (alphaKey "x") = some (acc 3) ∧
          s' (alphaKey "y") = some (acc 4) ∧
          s' (alphaKey "z") = some (acc 5) ∧
          (massMatrix mq !![Ixx, Ixy, Ixz; Iyx, Iyy, Iyz; Izx, Izy, Izz]).mulVec
              acc =
            vcat6 ![Fx, Fy, Fz] ![Tx, Ty, Tz] -
              biasVec ![wx, wy, wz]
                !![Ixx, Ixy, Ixz; Iyx, Iyy, Iyz; Izx, Izy, Izz]) := by
  have hrun : computeAccelerations s =
      (npLinalgInv
          (massMatrix mq !![Ixx, Ixy, Ixz; Iyx, Iyy, Iyz; Izx, Izy, Izz]) >>=
        fun invA =>
          pure (setPairs s
            [(aKey "x",
                invA.mulVec
                  (vcat6 ![Fx, Fy, Fz] ![Tx, Ty, Tz] -
                    vcat6 ![0, 0, 0]
                      ((cross_product_matrix ![wx, wy, wz] *
                          !![Ixx, Ixy, Ixz; Iyx, Iyy, Iyz; Izx, Izy, Izz]).mulVec
                        ![wx, wy, wz])) 0),
             (alphaKey "x",
                invA.mulVec
                  (vcat6 ![Fx, Fy, Fz] ![Tx, Ty, Tz] -
                    vcat6 ![0, 0, 0]
                      ((cross_product_matrix ![wx, wy, wz] *
                          !![Ixx, Ixy, Ixz; Iyx, Iyy, Iyz; Izx, Izy, Izz]).mulVec
                        ![wx, wy, wz])) 3),
             (aKey "y",
                invA.mulVec
                  (vcat6 ![Fx, Fy, Fz] ![Tx, Ty, Tz] -
                    vcat6 ![0, 0, 0]
                      ((cross_product_matrix ![wx, wy, wz] *
                          !![Ixx, Ixy, Ixz; Iyx, Iyy, Iyz; Izx, Izy, Izz]).mulVec
                        ![wx, wy, wz])) 1),
             (alphaKey "y",
                invA.mulVec
                  (vcat6 ![Fx, Fy, Fz] ![Tx, Ty, Tz] -
                    vcat6 ![0, 0, 0]
                      ((cross_product_matrix ![wx, wy, wz] *
                          !![Ixx, Ixy, Ixz; Iyx, Iyy, Iyz; Izx, Izy, Izz]).mulVec
                        ![wx, wy, wz])) 4),
             (aKey "z",
                invA.mulVec
                  (vcat6 ![Fx, Fy, Fz] ![Tx, Ty, Tz] -
                    vcat6 ![0, 0, 0]
                      ((cross_product_matrix ![wx, wy, wz] *
                          !![Ixx, Ixy, Ixz; Iyx, Iyy, Iyz; Izx, Izy, Izz]).mulVec
                        ![wx, wy, wz])) 2),
             (alphaKey "z",
                invA.mulVec
                  (vcat6 ![Fx, Fy, Fz] ![Tx, Ty, Tz] -
                    vcat6 ![0, 0, 0]
                      ((cross_product_matrix ![wx, wy, wz] *
                          !![Ixx, Ixy, Ixz; Iyx, Iyy, Iyz; Izx, Izy, Izz]).mulVec
                        ![wx, wy, wz])) 5)])) := by
    simp only [computeAccelerations, getE_some hFx, getE_some hFy,
      getE_some hFz, getE_some hTx, getE_some hTy, getE_some hTz,
      getE_some hwx, getE_some hwy, getE_some hwz, getE_some hIxx,
      getE_some hIxy, getE_some hIxz, getE_some hIyx, getE_some hIyy,
      getE_some hIyz, getE_some hIzx, getE_some hIzy, getE_some hIzz,
      getE_some hm, getE_some hcx, getE_some hcy, getE_some hcz, ok_bind]
    rfl
  constructor
  · intro hdet
    rw [hrun, npLinalgInv, if_pos hdet]
    rfl
  · intro hdet
    rw [hrun, npLinalgInv, if_neg hdet, ok_bind]
    refine ⟨_, rfl, ?_⟩
    refine ⟨((massMatrix mq
        !![Ixx, Ixy, Ixz; Iyx, Iyy, Iyz; Izx, Izy, Izz]).det⁻¹ •
        (massMatrix mq
          !![Ixx, Ixy, Ixz; Iyx, Iyy, Iyz; Izx, Izy, Izz]).adjugate).mulVec
          (vcat6 ![Fx, Fy, Fz] ![Tx, Ty, Tz] -
            vcat6 ![0, 0, 0]
              ((cross_product_matrix ![wx, wy, wz] *
                  !![Ixx, Ixy, Ixz; Iyx, Iyy, Iyz; Izx, Izy, Izz]).mulVec
                ![wx, wy, wz])), ?_, ?_, ?_, ?_, ?_, ?_, ?_⟩
    · simp +decide [setPairs, upd_apply]
    · simp +decide [setPairs, upd_apply]
    · simp +decide [setPairs, upd_apply]
    · simp +decide [setPairs, upd_apply]
    · simp +decide [setPairs, upd_apply]
    · simp +decide [setPairs, upd_apply]
    · rw [invSolve _ hdet, crossMat_mul_mulVec]
      rfl

/-- The C4 theorem applied to `c4State`. -/
theorem C4_newton_euler_solve_witness :
    (((massMatrix 1 !![1, 0, 0; 0, 1, 0; 0, 0, 1]).det = 0 →
        computeAccelerations c4State = Except.error Err.singularMassMatrix) ∧
      ((massMatrix 1 !![1, 0, 0; 0, 1, 0; 0, 0, 1]).det ≠ 0 →
        ∃ s', computeAccelerations c4State = Except.ok s' ∧
          ∃ acc : Fin 6 → ℚ,
            s' (aKey "x") = some (acc 0) ∧ s' (aKey "y") = some (acc 1) ∧
            s' (aKey "z") = some (acc 2) ∧
            s' (alphaKey "x") = some (acc 3) ∧
            s' (alphaKey "y") = some (acc 4) ∧
            s' (alphaKey "z") = some (acc 5) ∧
            (massMatrix 1 !![1, 0, 0; 0, 1, 0; 0, 0, 1]).mulVec acc =
              vcat6 ![0, 0, 0] ![0, 0, 0] -
                biasVec ![0, 0, 0] !![1, 0, 0; 0, 1, 0; 0, 0, 1])) :=
  C4_newton_euler_solve c4State 0 0 0 0 0 0 0 0 0 1 0 0 0 1 0 0 0 1 1 0 0 0
    (by decide) (by decide) (by decide) (by decide) (by decide) (by decide)
    (by decide) (by decide) (by decide) (by decide) (by decide) (by decide)
    (by decide) (by decide) (by decide) (by decide) (by decide) (by decide)
    (by decide) (by decide) (by decide) (by decide)

/-! ## Claims C7 and C8: the `MeshBuoyancy` write set -/

/-- Pairwise distinctness of the seven labels `MeshBuoyancy` writes,
for any generator name. -/
lemma dfx_fy (n : String) : fKey "x" n ≠ fKey "y" n :=
  ne_of_take 3 ['f', '_', 'x'] ['f', '_', 'y'] rfl rfl (by decide)
lemma dfx_fz (n : String) : fKey "x" n ≠ fKey "z" n :=
  ne_of_take 3 ['f', '_', 'x'] ['f', '_', 'z'] rfl rfl (by decide)
lemma dfy_fz (n : String) : fKey "y" n ≠ fKey "z" n :=
  ne_of_take 3 ['f', '_', 'y'] ['f', '_', 'z'] rfl rfl (by decide)
lemma dtx_ty (n : String) : tauKey "x" n ≠ tauKey "y" n :=
  ne_of_take 5 ['t', 'a', 'u', '_', 'x'] ['t', 'a', 'u', '_', 'y'] rfl rfl
    (by decide)
lemma dtx_tz (n : String) : tauKey "x" n ≠ tauKey "z" n :=
  ne_of_take 5 ['t', 'a', 'u', '_', 'x'] ['t', 'a', 'u', '_', 'z'] rfl rfl
    (by decide)
lemma dty_tz (n : String) : tauKey "y" n ≠ tauKey "z" n :=
  ne_of_take 5 ['t', 'a', 'u', '_', 'y'] ['t', 'a', 'u', '_', 'z'] rfl rfl
    (by decide)
lemma df_t (a b n : String) : fKey a n ≠ tauKey b n :=
  ne_of_take 1 ['f'] ['t'] rfl rfl (by decide)

/-- The submerged-volume diagnostic label differs from every
force/torque contribution label (their lengths differ). -/
lemma dvol_f (ax n : String) (hax : ax.length = 1) :
    n ++ "__submerged_volume" ≠ fKey ax n := by
  apply strNeOfLengthNe
  simp only [fKey, String.length_append]
  rw [show ("__submerged_volume" : String).length = 18 from rfl,
    show ("f_" : String).length = 2 from rfl,
    show ("__" : String).length = 2 from rfl, hax]
  omega

lemma dvol_t (ax n : String) (hax : ax.length = 1) :
    n ++ "__submerged_volume" ≠ tauKey ax n := by
  apply strNeOfLengthNe
  simp only [tauKey, String.length_append]
  rw [show ("__submerged_volume" : String).length = 18 from rfl,
    show ("tau_" : String).length = 4 from rfl,
    show ("__" : String).length = 2 from rfl, hax]
  omega

lemma drho_vol (n : String) :
    ("rho__water" : String) ≠ n ++ "__submerged_volume" := by
  apply strNeOfLengthNe
  simp only [String.length_append]
  rw [show ("rho__water" : String).length = 10 from rfl,
    show ("__submerged_volume" : String).length = 18 from rfl]
  omega

/-- Lookups in the state produced by `MeshBuoyancy`'s write sequence:
the seven written labels hold their written values, and every other
label is untouched. -/
lemma buoyWrites_lookup (base : AState) (n : String)
    (v0 v1 v2 v3 v4 v5 v6 : ℚ) :
    (setPairs (upd base (n ++ "__submerged_volume") v6)
        [(fKey "x" n, v0), (tauKey "x" n, v1), (fKey "y" n, v2),
         (tauKey "y" n, v3), (fKey "z" n, v4), (tauKey "z" n, v5)])
        (fKey "x" n) = some v0 ∧
    (setPairs (upd base (n ++ "__submerged_volume") v6)
        [(fKey "x" n, v0), (tauKey "x" n, v1), (fKey "y" n, v2),
         (tauKey "y" n, v3), (fKey "z" n, v4), (tauKey "z" n, v5)])
        (fKey "y" n) = some v2 ∧
    (setPairs (upd base (n ++ "__submerged_volume") v6)
        [(fKey "x" n, v0), (tauKey "x" n, v1), (fKey "y" n, v2),
         (tauKey "y" n, v3), (fKey "z" n, v4), (tauKey "z" n, v5)])
        (fKey "z" n) = some v4 ∧
    (setPairs (upd base (n ++ "__submerged_volume") v6)
        [(fKey "x" n, v0), (tauKey "x" n, v1), (fKey "y" n, v2),
         (tauKey "y" n, v3), (fKey "z" n, v4), (tauKey "z" n, v5)])
        (tauKey "x" n) = some v1 ∧
    (setPairs (upd base (n ++ "__submerged_volume") v6)
        [(fKey "x" n, v0), (tauKey "x" n, v1), (fKey "y" n, v2),
         (tauKey "y" n, v3), (fKey "z" n, v4), (tauKey "z" n, v5)])
        (tauKey "y" n) = some v3 ∧
    (setPairs (upd base (n ++ "__submerged_volume") v6)
        [(fKey "x" n, v0), (tauKey "x" n, v1), (fKey "y" n, v2),
         (tauKey "y" n, v3), (fKey "z" n, v4), (tauKey "z" n, v5)])
        (tauKey "z" n) = some v5 ∧
    (setPairs (upd base (n ++ "__submerged_volume") v6)
        [(fKey "x" n, v0), (tauKey "x" n, v1), (fKey "y" n, v2),
         (tauKey "y" n, v3), (fKey "z" n, v4), (tauKey "z" n, v5)])
        (n ++ "__submerged_volume") = some v6 ∧
    ∀ k, k ≠ fKey "x" n → k ≠ fKey "y" n → k ≠ fKey "z" n →
      k ≠ tauKey "x" n → k ≠ tauKey "y" n → k ≠ tauKey "z" n →
      k ≠ n ++ "__submerged_volume" →
      (setPairs (upd base (n ++ "__submerged_volume") v6)
          [(fKey "x" n, v0), (tauKey "x" n, v1), (fKey "y" n, v2),
           (tauKey "y" n, v3), (fKey "z" n, v4), (tauKey "z" n, v5)]) k =
        base k := by
  simp only [setPairs, List.foldl, upd_apply]
  refine ⟨?_, ?_, ?_, ?_, ?_, ?_, ?_, ?_⟩
  · rw [if_neg (df_t "x" "z" n), if_neg (dfx_fz n), if_neg (df_t "x" "y" n),
      if_neg (dfx_fy n), if_neg (df_t "x" "x" n), if_pos trivial]
  · rw [if_neg (df_t "y" "z" n), if_neg (dfy_fz n), if_neg (df_t "y" "y" n),
      if_pos trivial]
  · rw [if_neg (df_t "z" "z" n), if_pos trivial]
  · rw [if_neg (dtx_tz n), if_neg (fun h => df_t "z" "x" n h.symm),
      if_neg (dtx_ty n), if_neg (fun h => df_t "y" "x" n h.symm),
      if_pos trivial]
  · rw [if_neg (dty_tz n), if_neg (fun h => df_t "z" "y" n h.symm),
      if_pos trivial]
  · rw [if_pos trivial]
  · rw [if_neg (dvol_t "z" n rfl), if_neg (dvol_f "z" n rfl),
      if_neg (dvol_t "y" n rfl), if_neg (dvol_f "y" n rfl),
      if_neg (dvol_t "x" n rfl), if_neg (dvol_f "x" n rfl), if_pos trivial]
  · intro k h1 h2 h3 h4 h5 h6 h7
    rw [if_neg h6, if_neg h3, if_neg h5, if_neg h2, if_neg h4, if_neg h1,
      if_neg h7]

/-- Claim C7 (confirmed): when the slice of the placed mesh is empty,
`MeshBuoyancy` writes zero for all six force/torque components and
records a submerged volume of exactly `0`; when the slice is non-empty
but not watertight, it fails with the degenerate-slice error and writes
nothing. -/
theorem C7_empty_and_degenerate_slice (sp : SlicePlaneFn) (eps : ℚ)
    (rotOf : RotOfFn) (mesh : Mesh) (name : String) (s : AState) (dt : ℚ)
    (thx thy thz rx ry rz cx cy cz : ℚ)
    (h1 : s (thetaKey "x") = some thx) (h2 : s (thetaKey "y") = some thy)
    (h3 : s (thetaKey "z") = some thz)
    (h4 : s (rKey "x") = some rx) (h5 : s (rKey "y") = some ry)
    (h6 : s (rKey "z") = some rz)
    (h7 : s (cKey "x") = some cx) (h8 : s (cKey "y") = some cy)
    (h9 : s (cKey "z") = some cz) :
    ((sp (placeMesh (rotSelect eps rotOf ![thx, thy, thz]) ![rx, ry, rz]
          ![cx, cy, cz] mesh) ![0, 0, 0] ![0, 0, -1] true).isEmpty = true →
      ∃ s', computeDynamics sp eps rotOf mesh name s dt = Except.ok s' ∧
        s' (fKey "x" name) = some 0 ∧ s' (fKey "y" name) = some 0 ∧
        s' (fKey "z" name) = some 0 ∧ s' (tauKey "x" name) = some 0 ∧
        s' (tauKey "y" name) = some 0 ∧ s' (tauKey "z" name) = some 0 ∧
        s' (name ++ "__submerged_volume") = some 0) ∧
    ((sp (placeMesh (rotSelect eps rotOf ![thx, thy, thz]) ![rx, ry, rz]
          ![cx, cy, cz] mesh) ![0, 0, 0] ![0, 0, -1] true).isEmpty = false →
      (sp (placeMesh (rotSelect eps rotOf ![thx, thy, thz]) ![rx, ry, rz]
          ![cx, cy, cz] mesh) ![0, 0, 0] ![0, 0, -1] true).isWatertight =
        false →
      computeDynamics sp eps rotOf mesh name s dt =
        Except.error Err.degenerateSlice) := by
  simp only [computeDynamics, getE_some h1, getE_some h2, getE_some h3,
    getE_some h4, getE_some h5, getE_some h6, getE_some h7, getE_some h8,
    getE_some h9, ok_bind]
  constructor
  · intro hemp
    rw [if_pos hemp]
    refine ⟨_, rfl, ?_, ?_, ?_, ?_, ?_, ?_, ?_⟩
    · simpa using (buoyWrites_lookup s name ((![0, 0, 0] : V3) 0)
        ((![0, 0, 0] : V3) 0) ((![0, 0, 0] : V3) 1) ((![0, 0, 0] : V3) 1)
        ((![0, 0, 0] : V3) 2) ((![0, 0, 0] : V3) 2) 0).1
    · simpa using (buoyWrites_lookup s name ((![0, 0, 0] : V3) 0)
        ((![0, 0, 0] : V3) 0) ((![0, 0, 0] : V3) 1) ((![0, 0, 0] : V3) 1)
        ((![0, 0, 0] : V3) 2) ((![0, 0, 0] : V3) 2) 0).2.1
    · simpa using (buoyWrites_lookup s name ((![0, 0, 0] : V3) 0)
        ((![0, 0, 0] : V3) 0) ((![0, 0, 0] : V3) 1) ((![0, 0, 0] : V3) 1)
        ((![0, 0, 0] : V3) 2) ((![0, 0, 0] : V3) 2) 0).2.2.1
    · simpa using (buoyWrites_lookup s name ((![0, 0, 0] : V3) 0)
        ((![0, 0, 0] : V3) 0) ((![0, 0, 0] : V3) 1) ((![0, 0, 0] : V3) 1)
        ((![0, 0, 0] : V3) 2) ((![0, 0, 0] : V3) 2) 0).2.2.2.1
    · simpa using (buoyWrites_lookup s name ((![0, 0, 0] : V3) 0)
        ((![0, 0, 0] : V3) 0) ((![0, 0, 0] : V3) 1) ((![0, 0, 0] : V3) 1)
        ((![0, 0, 0] : V3) 2) ((![0, 0, 0] : V3) 2) 0).2.2.2.2.1
    · simpa using (buoyWrites_lookup s name ((![0, 0, 0] : V3) 0)
        ((![0, 0, 0] : V3) 0) ((![0, 0, 0] : V3) 1) ((![0, 0, 0] : V3) 1)
        ((![0, 0, 0] : V3) 2) ((![0, 0, 0] : V3) 2) 0).2.2.2.2.2.1
    · simpa using (buoyWrites_lookup s name ((![0, 0, 0] : V3) 0)
        ((![0, 0, 0] : V3) 0) ((![0, 0, 0] : V3) 1) ((![0, 0, 0] : V3) 1)
        ((![0, 0, 0] : V3) 2) ((![0, 0, 0] : V3) 2) 0).2.2.2.2.2.2.1
  · intro hemp hwt
    rw [if_neg (by simp [hemp])]
    simp only [hwt, Bool.not_false, if_pos]
    rfl

/-- The C7 theorem applied to the all-zero placement over the trivial
empty-slice provider. -/
theorem C7_empty_and_degenerate_slice_witness :
    ((emptySliceFn
          (placeMesh (rotSelect 0 (fun _ => 1) ![0, 0, 0]) ![0, 0, 0]
            ![0, 0, 0] []) ![0, 0, 0] ![0, 0, -1] true).isEmpty = true →
      ∃ s', computeDynamics emptySliceFn 0 (fun _ => 1) [] "buoyancy"
            buoyInState 1 = Except.ok s' ∧
        s' (fKey "x" "buoyancy") = some 0 ∧
        s' (fKey "y" "buoyancy") = some 0 ∧
        s' (fKey "z" "buoyancy") = some 0 ∧
        s' (tauKey "x" "buoyancy") = some 0 ∧
        s' (tauKey "y" "buoyancy") = some 0 ∧
        s' (tauKey "z" "buoyancy") = some 0 ∧
        s' ("buoyancy" ++ "__submerged_volume") = some 0) ∧
    ((emptySliceFn
          (placeMesh (rotSelect 0 (fun _ => 1) ![0, 0, 0]) ![0, 0, 0]
            ![0, 0, 0] []) ![0, 0, 0] ![0, 0, -1] true).isEmpty = false →
      (emptySliceFn
          (placeMesh (rotSelect 0 (fun _ => 1) ![0, 0, 0]) ![0, 0, 0]
            ![0, 0, 0] []) ![0, 0, 0] ![0, 0, -1] true).isWatertight =
        false →
      computeDynamics emptySliceFn 0 (fun _ => 1) [] "buoyancy"
          buoyInState 1 =
        Except.error Err.degenerateSlice) :=
  C7_empty_and_degenerate_slice emptySliceFn 0 (fun _ => 1) [] "buoyancy"
    buoyInState 1 0 0 0 0 0 0 0 0 0 (by decide) (by decide) (by decide)
    (by decide) (by decide) (by decide) (by decide) (by decide) (by decide)

/-- One axis of the driver's aggregation over the single generator
list `[nm]` reads exactly the generator's own contribution labels and
writes the two `__total` labels for the axis. -/
lemma totalsAxis_singleton (nm : String) (t : AState) (ax : String)
    (g h : ℚ) (hg : t (fKey ax nm) = some g)
    (hh : t (tauKey ax nm) = some h) :
    totalsAxis [nm] t ax =
      Except.ok (setPairs t [(fTotKey ax, 0 + g), (tauTotKey ax, 0 + h)]) := by
  simp [totalsAxis, sumE, getE_some hg, getE_some hh, ok_bind]

/-- Claim C8 counterexample: with the empty-slice provider and an
all-zero state, `MeshBuoyancy` named `buoyancy` leaves the claimed
diagnostic key `submerged_volume__buoyancy` absent and instead records
the volume under `buoyancy__submerged_volume` (the generator name comes
first). -/
theorem C8_counterexample_diagnostic_key :
    Except.map
        (fun s' : AState =>
          ( s' "submerged_volume__buoyancy", s' "buoyancy__submerged_volume"))
        (computeDynamics emptySliceFn 0 (fun _ => 1) [] "buoyancy"
          buoyInState 1) =
      Except.ok (none, some 0) := rfl

/-- Claim C8 amended: on success the keys `MeshBuoyancy` writes are
exactly `f_<axis>__<name>` and `tau_<axis>__<name>` for the three axes
plus the diagnostic `<name>__submerged_volume` — every other label is
untouched — and the driver's per-axis aggregation sums exactly the
`f_<axis>__<name>`/`tau_<axis>__<name>` labels into the `__total`
labels. -/
theorem C8_amended_written_keys (sp : SlicePlaneFn) (eps : ℚ)
    (rotOf : RotOfFn) (mesh : Mesh) (name : String) (s s' : AState)
    (dt : ℚ) (thx thy thz rx ry rz cx cy cz : ℚ)
    (h1 : s (thetaKey "x") = some thx) (h2 : s (thetaKey "y") = some thy)
    (h3 : s (thetaKey "z") = some thz)
    (h4 : s (rKey "x") = some rx) (h5 : s (rKey "y") = some ry)
    (h6 : s (rKey "z") = some rz)
    (h7 : s (cKey "x") = some cx) (h8 : s (cKey "y") = some cy)
    (h9 : s (cKey "z") = some cz)
    (hok : computeDynamics sp eps rotOf mesh name s dt = Except.ok s') :
    (∀ k, k ≠ fKey "x" name → k ≠ fKey "y" name → k ≠ fKey "z" name →
      k ≠ tauKey "x" name → k ≠ tauKey "y" name → k ≠ tauKey "z" name →
      k ≠ name ++ "__submerged_volume" → s' k = s k) ∧
    (s' (fKey "x" name)).isSome ∧ (s' (fKey "y" name)).isSome ∧
    (s' (fKey "z" name)).isSome ∧ (s' (tauKey "x" name)).isSome ∧
    (s' (tauKey "y" name)).isSome ∧ (s' (tauKey "z" name)).isSome ∧
    (s' (name ++ "__submerged_volume")).isSome ∧
    (∀ (t : AState) (ax : String) (g h : ℚ), t (fKey ax name) = some g →
      t (tauKey ax name) = some h →
      totalsAxis [name] t ax =
        Except.ok
          (setPairs t [(fTotKey ax, 0 + g), (tauTotKey ax, 0 + h)])) := by
  simp only [computeDynamics, getE_some h1, getE_some h2, getE_some h3,
    getE_some h4, getE_some h5, getE_some h6, getE_some h7, getE_some h8,
    getE_some h9, ok_bind] at hok
  have main : (∀ k, k ≠ fKey "x" name → k ≠ fKey "y" name →
      k ≠ fKey "z" name → k ≠ tauKey "x" name → k ≠ tauKey "y" name →
      k ≠ tauKey "z" name → k ≠ name ++ "__submerged_volume" →
      s' k = s k) ∧
      (s' (fKey "x" name)).isSome ∧ (s' (fKey "y" name)).isSome ∧
      (s' (fKey "z" name)).isSome ∧ (s' (tauKey "x" name)).isSome ∧
      (s' (tauKey "y" name)).isSome ∧ (s' (tauKey "z" name)).isSome ∧
      (s' (name ++ "__submerged_volume")).isSome := by
    cases hemp : (sp (placeMesh (rotSelect eps rotOf ![thx, thy, thz])
        ![rx, ry, rz] ![cx, cy, cz] mesh) ![0, 0, 0] ![0, 0, -1]
        true).isEmpty with
    | true =>
      rw [if_pos hemp] at hok
      obtain rfl : _ = s' := (Except.ok.injEq _ _).mp hok
      obtain ⟨L1, L2, L3, L4, L5, L6, L7, L8⟩ :=
        buoyWrites_lookup s name _ _ _ _ _ _ 0
      exact ⟨L8, by rw [L1]; rfl, by rw [L2]; rfl, by rw [L3]; rfl,
        by rw [L4]; rfl, by rw [L5]; rfl, by rw [L6]; rfl,
        by rw [L7]; rfl⟩
    | false =>
      rw [if_neg (by simp [hemp])] at hok
      cases hwt : (sp (placeMesh (rotSelect eps rotOf ![thx, thy, thz])
          ![rx, ry, rz] ![cx, cy, cz] mesh) ![0, 0, 0] ![0, 0, -1]
          true).isWatertight with
      | false => simp [hwt] at hok
      | true =>
        rw [if_neg (by simp [hwt])] at hok
        cases hrho : s "rho__water" with
        | none =>
          rw [getE_none (k := "rho__water")
            (by simp [upd_apply, drho_vol name, hrho])] at hok
          simp [Bind.bind, Except.bind] at hok
        | some rho =>
          rw [getE_some (k := "rho__water")
            (by simp [upd_apply, drho_vol name, hrho] : _ = some rho),
            ok_bind] at hok
          obtain rfl : _ = s' := (Except.ok.injEq _ _).mp hok
          obtain ⟨L1, L2, L3, L4, L5, L6, L7, L8⟩ :=
            buoyWrites_lookup s name _ _ _ _ _ _ _
          exact ⟨L8, by rw [L1]; rfl, by rw [L2]; rfl, by rw [L3]; rfl,
            by rw [L4]; rfl, by rw [L5]; rfl, by rw [L6]; rfl,
            by rw [L7]; rfl⟩
  refine ⟨main.1, main.2.1, main.2.2.1, main.2.2.2.1, main.2.2.2.2.1,
    main.2.2.2.2.2.1, main.2.2.2.2.2.2.1, main.2.2.2.2.2.2.2, ?_⟩
  intro t ax g h hg hh
  exact totalsAxis_singleton name t ax g h hg hh

/-- The C8 amended theorem applied to the empty-slice run from
`buoyInState`. -/
theorem C8_amended_written_keys_witness :
    (∀ k, k ≠ fKey "x" "buoyancy" → k ≠ fKey "y" "buoyancy" →
      k ≠ fKey "z" "buoyancy" → k ≠ tauKey "x" "buoyancy" →
      k ≠ tauKey "y" "buoyancy" → k ≠ tauKey "z" "buoyancy" →
      k ≠ "buoyancy" ++ "__submerged_volume" →
      c8OutState k = buoyInState k) ∧
    (c8OutState (fKey "x" "buoyancy")).isSome ∧
    (c8OutState (fKey "y" "buoyancy")).isSome ∧
    (c8OutState (fKey "z" "buoyancy")).isSome ∧
    (c8OutState (tauKey "x" "buoyancy")).isSome ∧
    (c8OutState (tauKey "y" "buoyancy")).isSome ∧
    (c8OutState (tauKey "z" "buoyancy")).isSome ∧
    (c8OutState ("buoyancy" ++ "__submerged_volume")).isSome ∧
    (∀ (t : AState) (ax : String) (g h : ℚ),
      t (fKey ax "buoyancy") = some g → t (tauKey ax "buoyancy") = some h →
      totalsAxis ["buoyancy"] t ax =
        Except.ok
          (setPairs t [(fTotKey ax, 0 + g), (tauTotKey ax, 0 + h)])) :=
  C8_amended_written_keys emptySliceFn 0 (fun _ => 1) [] "buoyancy"
    buoyInState c8OutState 1 0 0 0 0 0 0 0 0 0 (by decide) (by decide)
    (by decide) (by decide) (by decide) (by decide) (by decide) (by decide)
    (by decide) rfl

/-! ## Claim C9 -/

lemma pure_ok {α : Type} (a : α) : (pure a : Except Err α) = Except.ok a :=
  rfl

/-- Evaluation of Python's `sum` over present labels, with a general
accumulator. -/
lemma sumE_fold (s : AState) (keys : List String) (init : ℚ)
    (hp : ∀ k ∈ keys, (s k).isSome) :
    keys.foldlM (fun acc k => do
        let v ← getE s k
        pure (acc + v)) init =
      Except.ok
        ((keys.map (fun k => (s k).getD 0)).foldl (fun a b => a + b) init) := by
  induction keys generalizing init with
  | nil => rfl
  | cons k ks ih =>
      obtain ⟨v, hv⟩ := Option.isSome_iff_exists.mp (hp k (by simp))
      rw [List.foldlM_cons, getE_some hv, ok_bind, pure_ok, ok_bind]
      rw [ih (init + v) (fun k' hk' => hp k' (List.mem_cons_of_mem _ hk'))]
      simp [hv]

lemma sumE_ok (s : AState) (keys : List String)
    (hp : ∀ k ∈ keys, (s k).isSome) :
    sumE s keys =
      Except.ok
        ((keys.map (fun k => (s k).getD 0)).foldl (fun a b => a + b) 0) :=
  sumE_fold s keys 0 hp

/-- One axis of the driver's total aggregation, evaluated. -/
lemma totalsAxis_ok (names : List String) (s : AState) (ax : String)
    (hp : ∀ n ∈ names, (s (fKey ax n)).isSome ∧ (s (tauKey ax n)).isSome) :
    totalsAxis names s ax =
      Except.ok (setPairs s
        [(fTotKey ax,
            (names.map (fun n => (s (fKey ax n)).getD 0)).foldl
              (fun a b => a + b) 0),
         (tauTotKey ax,
            (names.map (fun n => (s (tauKey ax n)).getD 0)).foldl
              (fun a b => a + b) 0)]) := by
  unfold totalsAxis
  rw [sumE_ok s (names.map (fKey ax))
      (fun k hk => by
        obtain ⟨n, hn, rfl⟩ := List.mem_map.mp hk
        exact (hp n hn).1),
    ok_bind,
    sumE_ok s (names.map (tauKey ax))
      (fun k hk => by
        obtain ⟨n, hn, rfl⟩ := List.mem_map.mp hk
        exact (hp n hn).2),
    ok_bind]
  simp [List.map_map, Function.comp_def, pure_ok]

lemma setPairs2_ne (base : AState) (k1 k2 k : String) (v1 v2 : ℚ)
    (h1 : k ≠ k1) (h2 : k ≠ k2) :
    setPairs base [(k1, v1), (k2, v2)] k = base k := by
  simp only [setPairs, List.foldl, upd_apply]
  rw [if_neg h2, if_neg h1]

lemma setPairs2_fst (base : AState) (k1 k2 : String) (v1 v2 : ℚ)
    (h : k1 ≠ k2) : setPairs base [(k1, v1), (k2, v2)] k1 = some v1 := by
  simp only [setPairs, List.foldl, upd_apply]
  rw [if_neg h]
  simp

lemma setPairs2_snd (base : AState) (k1 k2 : String) (v1 v2 : ℚ) :
    setPairs base [(k1, v1), (k2, v2)] k2 = some v2 := by
  simp only [setPairs, List.foldl, upd_apply]
  simp

lemma setPairs2_self (base : AState) (k1 k2 : String) (v1 v2 : ℚ)
    (h1 : base k1 = some v1) (h2 : base k2 = some v2) :
    setPairs base [(k1, v1), (k2, v2)] = base := by
  simp only [setPairs, List.foldl]
  rw [upd_self base k1 v1 h1, upd_self base k2 v2 h2]

/-- A per-generator contribution label never collides with a total
label of another axis or of the other quantity; for the same quantity
and axis it collides exactly when the generator is named `total`. -/
lemma df_tauTot (a b n : String) : fKey a n ≠ tauTotKey b :=
  ne_of_take 1 ['f'] ['t'] rfl rfl (by decide)
lemma dt_fTot (a b n : String) : tauKey a n ≠ fTotKey b :=
  ne_of_take 1 ['t'] ['f'] rfl rfl (by decide)
lemma fKey_ne_fTot (a n : String) (hne : n ≠ "total") :
    fKey a n ≠ fTotKey a := by
  intro e
  apply hne
  apply strAppendCancelLeft (p := ("f_" ++ a) ++ "__")
  calc (("f_" ++ a) ++ "__") ++ n = ("f_" ++ a) ++ "__total" := e
    _ = (("f_" ++ a) ++ "__") ++ "total" :=
      (String.append_assoc ("f_" ++ a) "__" "total").symm
lemma tauKey_ne_tauTot (a n : String) (hne : n ≠ "total") :
    tauKey a n ≠ tauTotKey a := by
  intro e
  apply hne
  apply strAppendCancelLeft (p := ("tau_" ++ a) ++ "__")
  calc (("tau_" ++ a) ++ "__") ++ n = ("tau_" ++ a) ++ "__total" := e
    _ = (("tau_" ++ a) ++ "__") ++ "total" :=
      (String.append_assoc ("tau_" ++ a) "__" "total").symm
lemma df_fTot_xy (n : String) : fKey "x" n ≠ fTotKey "y" :=
  ne_of_take 3 ['f', '_', 'x'] ['f', '_', 'y'] rfl rfl (by decide)
lemma df_fTot_xz (n : String) : fKey "x" n ≠ fTotKey "z" :=
  ne_of_take 3 ['f', '_', 'x'] ['f', '_', 'z'] rfl rfl (by decide)
lemma df_fTot_yx (n : String) : fKey "y" n ≠ fTotKey "x" :=
  ne_of_take 3 ['f', '_', 'y'] ['f', '_', 'x'] rfl rfl (by decide)
lemma df_fTot_yz (n : String) : fKey "y" n ≠ fTotKey "z" :=
  ne_of_take 3 ['f', '_', 'y'] ['f', '_', 'z'] rfl rfl (by decide)
lemma df_fTot_zx (n : String) : fKey "z" n ≠ fTotKey "x" :=
  ne_of_take 3 ['f', '_', 'z'] ['f', '_', 'x'] rfl rfl (by decide)
lemma df_fTot_zy (n : String) : fKey "z" n ≠ fTotKey "y" :=
  ne_of_take 3 ['f', '_', 'z'] ['f', '_', 'y'] rfl rfl (by decide)
lemma dt_tauTot_xy (n : String) : tauKey "x" n ≠ tauTotKey "y" :=
  ne_of_take 5 ['t', 'a', 'u', '_', 'x'] ['t', 'a', 'u', '_', 'y'] rfl rfl
    (by decide)
lemma dt_tauTot_xz (n : String) : tauKey "x" n ≠ tauTotKey "z" :=
  ne_of_take 5 ['t', 'a', 'u', '_', 'x'] ['t', 'a', 'u', '_', 'z'] rfl rfl
    (by decide)
lemma dt_tauTot_yx (n : String) : tauKey "y" n ≠ tauTotKey "x" :=
  ne_of_take 5 ['t', 'a', 'u', '_', 'y'] ['t', 'a', 'u', '_', 'x'] rfl rfl
    (by decide)
lemma dt_tauTot_yz (n : String) : tauKey "y" n ≠ tauTotKey "z" :=
  ne_of_take 5 ['t', 'a', 'u', '_', 'y'] ['t', 'a', 'u', '_', 'z'] rfl rfl
    (by decide)
lemma dt_tauTot_zx (n : String) : tauKey "z" n ≠ tauTotKey "x" :=
  ne_of_take 5 ['t', 'a', 'u', '_', 'z'] ['t', 'a', 'u', '_', 'x'] rfl rfl
    (by decide)
lemma dt_tauTot_zy (n : String) : tauKey "z" n ≠ tauTotKey "y" :=
  ne_of_take 5 ['t', 'a', 'u', '_', 'z'] ['t', 'a', 'u', '_', 'y'] rfl rfl
    (by decide)

lemma totalsAxis_ok' (names : List String) (s : AState) (ax : String)
    (hp : ∀ n ∈ names, (s (fKey ax n)).isSome ∧ (s (tauKey ax n)).isSome) :
    totalsAxis names s ax =
      Except.ok (setPairs s
        [(fTotKey ax, sumF s ax names), (tauTotKey ax, sumT s ax names)]) := by
  unfold sumF sumT
  exact totalsAxis_ok names s ax hp

/-- The driver's per-axis sums depend only on the contribution
labels. -/
lemma sumF_congr (t u : AState) (ax : String) (names : List String)
    (h : ∀ n ∈ names, t (fKey ax n) = u (fKey ax n)) :
    sumF t ax names = sumF u ax names := by
  unfold sumF
  congr 1
  exact List.map_congr_left (fun n hn => by rw [h n hn])

lemma sumT_congr (t u : AState) (ax : String) (names : List String)
    (h : ∀ n ∈ names, t (tauKey ax n) = u (tauKey ax n)) :
    sumT t ax names = sumT u ax names := by
  unfold sumT
  congr 1
  exact List.map_congr_left (fun n hn => by rw [h n hn])

/-- Contribution labels pass through the totals writes unchanged. -/
lemma stage1_lookup_f (s : AState) (names : List String) (n : String)
    (ax : String) (hax : ax = "y" ∨ ax = "z") :
    (setPairs s
        [(fTotKey "x", sumF s "x" names), (tauTotKey "x", sumT s "x" names)])
        (fKey ax n) = s (fKey ax n) := by
  rcases hax with rfl | rfl
  · exact setPairs2_ne s _ _ _ _ _ (df_fTot_yx n) (df_tauTot "y" "x" n)
  · exact setPairs2_ne s _ _ _ _ _ (df_fTot_zx n) (df_tauTot "z" "x" n)

lemma stage1_lookup_t (s : AState) (names : List String) (n : String)
    (ax : String) (hax : ax = "y" ∨ ax = "z") :
    (setPairs s
        [(fTotKey "x", sumF s "x" names), (tauTotKey "x", sumT s "x" names)])
        (tauKey ax n) = s (tauKey ax n) := by
  rcases hax with rfl | rfl
  · exact setPairs2_ne s _ _ _ _ _ (dt_fTot "y" "x" n) (dt_tauTot_yx n)
  · exact setPairs2_ne s _ _ _ _ _ (dt_fTot "z" "x" n) (dt_tauTot_zx n)

/-- The driver's aggregation evaluated: totals for the three axes in
order, all computed from the input state. -/
lemma computeTotals_ok (names : List String) (s : AState)
    (hpres : ∀ n ∈ names, ∀ ax ∈ AXES,
      (s (fKey ax n)).isSome ∧ (s (tauKey ax n)).isSome) :
    computeTotals names s = Except.ok (totalsOut s names) := by
  have hx : ∀ n ∈ names, (s (fKey "x" n)).isSome ∧ (s (tauKey "x" n)).isSome :=
    fun n hn => hpres n hn "x" (by decide)
  have hy : ∀ n ∈ names, (s (fKey "y" n)).isSome ∧ (s (tauKey "y" n)).isSome :=
    fun n hn => hpres n hn "y" (by decide)
  have hz : ∀ n ∈ names, (s (fKey "z" n)).isSome ∧ (s (tauKey "z" n)).isSome :=
    fun n hn => hpres n hn "z" (by decide)
  have e1 := totalsAxis_ok' names s "x" hx
  have hT1f : ∀ ax, (ax = "y" ∨ ax = "z") → ∀ n,
      (setPairs s [(fTotKey "x", sumF s "x" names),
          (tauTotKey "x", sumT s "x" names)]) (fKey ax n) = s (fKey ax n) :=
    fun ax hax n => stage1_lookup_f s names n ax hax
  have hT1t : ∀ ax, (ax = "y" ∨ ax = "z") → ∀ n,
      (setPairs s [(fTotKey "x", sumF s "x" names),
          (tauTotKey "x", sumT s "x" names)]) (tauKey ax n) =
        s (tauKey ax n) :=
    fun ax hax n => stage1_lookup_t s names n ax hax
  have hsf1 : ∀ ax, (ax = "y" ∨ ax = "z") →
      sumF (setPairs s [(fTotKey "x", sumF s "x" names),
        (tauTotKey "x", sumT s "x" names)]) ax names = sumF s ax names :=
    fun ax hax => sumF_congr _ s ax names (fun n _ => hT1f ax hax n)
  have hst1 : ∀ ax, (ax = "y" ∨ ax = "z") →
      sumT (setPairs s [(fTotKey "x", sumF s "x" names),
        (tauTotKey "x", sumT s "x" names)]) ax names = sumT s ax names :=
    fun ax hax => sumT_congr _ s ax names (fun n _ => hT1t ax hax n)
  have e2 : totalsAxis names
      (setPairs s [(fTotKey "x", sumF s "x" names),
        (tauTotKey "x", sumT s "x" names)]) "y" =
      Except.ok (setPairs
        (setPairs s [(fTotKey "x", sumF s "x" names),
          (tauTotKey "x", sumT s "x" names)])
        [(fTotKey "y", sumF s "y" names),
         (tauTotKey "y", sumT s "y" names)]) := by
    rw [totalsAxis_ok' names _ "y"
      (fun n hn => by
        rw [hT1f "y" (Or.inl rfl) n, hT1t "y" (Or.inl rfl) n]
        exact hy n hn)]
    rw [hsf1 "y" (Or.inl rfl), hst1 "y" (Or.inl rfl)]
  have hT2f : ∀ n,
      (setPairs
        (setPairs s [(fTotKey "x", sumF s "x" names),
          (tauTotKey "x", sumT s "x" names)])
        [(fTotKey "y", sumF s "y" names),
         (tauTotKey "y", sumT s "y" names)]) (fKey "z" n) =
        s (fKey "z" n) := by
    intro n
    rw [setPairs2_ne _ _ _ _ _ _ (df_fTot_zy n) (df_tauTot "z" "y" n)]
    exact hT1f "z" (Or.inr rfl) n
  have hT2t : ∀ n,
      (setPairs
        (setPairs s [(fTotKey "x", sumF s "x" names),
          (tauTotKey "x", sumT s "x" names)])
        [(fTotKey "y", sumF s "y" names),
         (tauTotKey "y", sumT s "y" names)]) (tauKey "z" n) =
        s (tauKey "z" n) := by
    intro n
    rw [setPairs2_ne _ _ _ _ _ _ (dt_fTot "z" "y" n) (dt_tauTot_zy n)]
    exact hT1t "z" (Or.inr rfl) n
  have e3 : totalsAxis names
      (setPairs
        (setPairs s [(fTotKey "x", sumF s "x" names),
          (tauTotKey "x", sumT s "x" names)])
        [(fTotKey "y", sumF s "y" names),
         (tauTotKey "y", sumT s "y" names)]) "z" =
      Except.ok (totalsOut s names) := by
    rw [totalsAxis_ok' names _ "z"
      (fun n hn => by rw [hT2f n, hT2t n]; exact hz n hn)]
    unfold totalsOut
    rw [sumF_congr _ s "z" names (fun n _ => hT2f n),
      sumT_congr _ s "z" names (fun n _ => hT2t n)]
  show AXES.foldlM (totalsAxis names) s = _
  rw [show AXES = ["x", "y", "z"] from rfl, List.foldlM_cons, e1, ok_bind,
    List.foldlM_cons, e2, ok_bind, List.foldlM_cons, e3, ok_bind,
    List.foldlM_nil]
  rfl

/-- Claim C9 (confirmed): with all per-generator contribution labels
populated (and no generator named `total`, which would collide with the
reserved total labels), the per-axis totals are the sums of the
per-generator contributions, only the six `__total` labels are written,
and recomputing the totals from the resulting state reproduces it
exactly (idempotence). -/
theorem C9_totals_sum_idempotent (names : List String) (s : AState)
    (hpres : ∀ n ∈ names, ∀ ax ∈ AXES,
      (s (fKey ax n)).isSome ∧ (s (tauKey ax n)).isSome)
    (hnt : "total" ∉ names) :
    computeTotals names s = Except.ok (totalsOut s names) ∧
    (totalsOut s names) (fTotKey "x") = some (sumF s "x" names) ∧
    (totalsOut s names) (fTotKey "y") = some (sumF s "y" names) ∧
    (totalsOut s names) (fTotKey "z") = some (sumF s "z" names) ∧
    (totalsOut s names) (tauTotKey "x") = some (sumT s "x" names) ∧
    (totalsOut s names) (tauTotKey "y") = some (sumT s "y" names) ∧
    (totalsOut s names) (tauTotKey "z") = some (sumT s "z" names) ∧
    (∀ k, k ≠ fTotKey "x" → k ≠ fTotKey "y" → k ≠ fTotKey "z" →
      k ≠ tauTotKey "x" → k ≠ tauTotKey "y" → k ≠ tauTotKey "z" →
      (totalsOut s names) k = s k) ∧
    computeTotals names (totalsOut s names) =
      Except.ok (totalsOut s names) := by
  have hne : ∀ n ∈ names, n ≠ "total" := fun n hn he => hnt (he ▸ hn)
  have v1 : (totalsOut s names) (fTotKey "x") = some (sumF s "x" names) := by
    simp +decide [totalsOut, setPairs, upd_apply]
  have v2 : (totalsOut s names) (fTotKey "y") = some (sumF s "y" names) := by
    simp +decide [totalsOut, setPairs, upd_apply]
  have v3 : (totalsOut s names) (fTotKey "z") = some (sumF s "z" names) := by
    simp +decide [totalsOut, setPairs, upd_apply]
  have v4 : (totalsOut s names) (tauTotKey "x") =
      some (sumT s "x" names) := by
    simp +decide [totalsOut, setPairs, upd_apply]
  have v5 : (totalsOut s names) (tauTotKey "y") =
      some (sumT s "y" names) := by
    simp +decide [totalsOut, setPairs, upd_apply]
  have v6 : (totalsOut s names) (tauTotKey "z") =
      some (sumT s "z" names) := by
    simp +decide [totalsOut, setPairs, upd_apply]
  have huntouched : ∀ k, k ≠ fTotKey "x" → k ≠ fTotKey "y" →
      k ≠ fTotKey "z" → k ≠ tauTotKey "x" → k ≠ tauTotKey "y" →
      k ≠ tauTotKey "z" → (totalsOut s names) k = s k := by
    intro k h1 h2 h3 h4 h5 h6
    simp [totalsOut, setPairs, upd_apply, h1, h2, h3, h4, h5, h6]
  have htf : ∀ ax ∈ AXES, ∀ n ∈ names,
      (totalsOut s names) (fKey ax n) = s (fKey ax n) := by
    intro ax hax n hn
    have hax3 : ax = "x" ∨ ax = "y" ∨ ax = "z" := by
      simpa [AXES] using hax
    rcases hax3 with rfl | rfl | rfl
    · exact huntouched _ (fKey_ne_fTot "x" n (hne n hn)) (df_fTot_xy n)
        (df_fTot_xz n) (df_tauTot "x" "x" n) (df_tauTot "x" "y" n)
        (df_tauTot "x" "z" n)
    · exact huntouched _ (df_fTot_yx n) (fKey_ne_fTot "y" n (hne n hn))
        (df_fTot_yz n) (df_tauTot "y" "x" n) (df_tauTot "y" "y" n)
        (df_tauTot "y" "z" n)
    · exact huntouched _ (df_fTot_zx n) (df_fTot_zy n)
        (fKey_ne_fTot "z" n (hne n hn)) (df_tauTot "z" "x" n)
        (df_tauTot "z" "y" n) (df_tauTot "z" "z" n)
  have htt : ∀ ax ∈ AXES, ∀ n ∈ names,
      (totalsOut s names) (tauKey ax n) = s (tauKey ax n) := by
    intro ax hax n hn
    have hax3 : ax = "x" ∨ ax = "y" ∨ ax = "z" := by
      simpa [AXES] using hax
    rcases hax3 with rfl | rfl | rfl
    · exact huntouched _ (dt_fTot "x" "x" n) (dt_fTot "x" "y" n)
        (dt_fTot "x" "z" n) (tauKey_ne_tauTot "x" n (hne n hn))
        (dt_tauTot_xy n) (dt_tauTot_xz n)
    · exact huntouched _ (dt_fTot "y" "x" n) (dt_fTot "y" "y" n)
        (dt_fTot "y" "z" n) (dt_tauTot_yx n)
        (tauKey_ne_tauTot "y" n (hne n hn)) (dt_tauTot_yz n)
    · exact huntouched _ (dt_fTot "z" "x" n) (dt_fTot "z" "y" n)
        (dt_fTot "z" "z" n) (dt_tauTot_zx n) (dt_tauTot_zy n)
        (tauKey_ne_tauTot "z" n (hne n hn))
  have hidem : computeTotals names (totalsOut s names) =
      Except.ok (totalsOut s names) := by
    have hpres1 : ∀ n ∈ names, ∀ ax ∈ AXES,
        ((totalsOut s names) (fKey ax n)).isSome ∧
          ((totalsOut s names) (tauKey ax n)).isSome := by
      intro n hn ax hax
      rw [htf ax hax n hn, htt ax hax n hn]
      exact hpres n hn ax hax
    have step := computeTotals_ok names (totalsOut s names) hpres1
    have heq : totalsOut (totalsOut s names) names = totalsOut s names := by
      have sfx := sumF_congr (totalsOut s names) s "x" names
        (fun n hn => htf "x" (by decide) n hn)
      have sfy := sumF_congr (totalsOut s names) s "y" names
        (fun n hn => htf "y" (by decide) n hn)
      have sfz := sumF_congr (totalsOut s names) s "z" names
        (fun n hn => htf "z" (by decide) n hn)
      have stx := sumT_congr (totalsOut s names) s "x" names
        (fun n hn => htt "x" (by decide) n hn)
      have sty := sumT_congr (totalsOut s names) s "y" names
        (fun n hn => htt "y" (by decide) n hn)
      have stz := sumT_congr (totalsOut s names) s "z" names
        (fun n hn => htt "z" (by decide) n hn)
      generalize hs1 : totalsOut s names = s1 at v1 v2 v3 v4 v5 v6 sfx sfy sfz stx sty stz ⊢
      unfold totalsOut
      rw [sfx, sfy, sfz, stx, sty, stz]
      rw [setPairs2_self s1 _ _ _ _ v1 v4, setPairs2_self s1 _ _ _ _ v2 v5,
        setPairs2_self s1 _ _ _ _ v3 v6]
    rw [step, heq]
  exact ⟨computeTotals_ok names s hpres, v1, v2, v3, v4, v5, v6,
    huntouched, hidem⟩

/-- The C9 theorem applied to a single generator named `g`. -/
theorem C9_totals_sum_idempotent_witness :
    computeTotals ["g"] c9State = Except.ok (totalsOut c9State ["g"]) ∧
    (totalsOut c9State ["g"]) (fTotKey "x") =
      some (sumF c9State "x" ["g"]) ∧
    (totalsOut c9State ["g"]) (fTotKey "y") =
      some (sumF c9State "y" ["g"]) ∧
    (totalsOut c9State ["g"]) (fTotKey "z") =
      some (sumF c9State "z" ["g"]) ∧
    (totalsOut c9State ["g"]) (tauTotKey "x") =
      some (sumT c9State "x" ["g"]) ∧
    (totalsOut c9State ["g"]) (tauTotKey "y") =
      some (sumT c9State "y" ["g"]) ∧
    (totalsOut c9State ["g"]) (tauTotKey "z") =
      some (sumT c9State "z" ["g"]) ∧
    (∀ k, k ≠ fTotKey "x" → k ≠ fTotKey "y" → k ≠ fTotKey "z" →
      k ≠ tauTotKey "x" → k ≠ tauTotKey "y" → k ≠ tauTotKey "z" →
      (totalsOut c9State ["g"]) k = c9State k) ∧
    computeTotals ["g"] (totalsOut c9State ["g"]) =
      Except.ok (totalsOut c9State ["g"]) :=
  C9_totals_sum_idempotent ["g"] c9State (by decide) (by decide)

/-! ## Claim C3: the two-branch kinematic update -/

/-- A successful per-axis update writes only the position, orientation,
velocity and angular-velocity labels of its own axis. -/
lemma perAxis_untouched (s : AState) (hist : List AState) (dt : ℚ)
    (next res : AState) (ax : String)
    (hok : perAxis s hist dt next ax = Except.ok res) :
    ∀ k, k ≠ rKey ax → k ≠ thetaKey ax → k ≠ vKey ax → k ≠ omegaKey ax →
      res k = next k := by
  intro k h1 h2 h3 h4
  unfold perAxis at hok
  by_cases hl : hist.length = 1
  · rw [if_pos hl] at hok
    simp only [bindE_ok, pure_ok, Except.ok.injEq] at hok
    obtain ⟨a1, _, a2, _, a3, _, a4, _, a5, _, a6, _, a7, _, a8, _, a9, _,
      a10, _, hres⟩ := hok
    subst hres
    simp [upd_apply, h1, h2, h3, h4]
  · rw [if_neg hl] at hok
    simp only [bindE_ok, pure_ok, Except.ok.injEq] at hok
    obtain ⟨a1, _, a2, _, a3, _, a4, _, a5, _, a6, _, a7, _, a8, _,
      hres⟩ := hok
    subst hres
    simp [upd_apply, h1, h2, h3, h4]

/-- Evaluation of the bootstrap (first-step) branch of the per-axis
update. -/
lemma perAxis_boot_eval (s : AState) (hist : List AState) (dt : ℚ)
    (next : AState) (ax : String) (hl : hist.length = 1)
    (nr nth na nal nv nw sv sw sa sal : ℚ)
    (hnr : next (rKey ax) = some nr)
    (hnth : next (thetaKey ax) = some nth)
    (hna : next (aKey ax) = some na)
    (hnal : next (alphaKey ax) = some nal)
    (hnv : next (vKey ax) = some nv)
    (hnw : next (omegaKey ax) = some nw)
    (hsv : s (vKey ax) = some sv)
    (hsw : s (omegaKey ax) = some sw)
    (hsa : s (aKey ax) = some sa)
    (hsal : s (alphaKey ax) = some sal)
    (d1 : thetaKey ax ≠ rKey ax)
    (d3 : alphaKey ax ≠ rKey ax)
    (d5 : vKey ax ≠ rKey ax) (d6 : vKey ax ≠ thetaKey ax)
    (d7 : omegaKey ax ≠ rKey ax) (d8 : omegaKey ax ≠ thetaKey ax)
    (d9 : omegaKey ax ≠ vKey ax) :
    perAxis s hist dt next ax =
      Except.ok
        (upd
          (upd
            (upd (upd next (rKey ax) (nr + (sv * dt + 1/2 * na * dt ^ 2)))
              (thetaKey ax) (nth + (sw * dt + 1/2 * nal * dt ^ 2)))
            (vKey ax) (nv + sa * dt))
          (omegaKey ax) (nw + sal * dt)) := by
  unfold perAxis
  rw [if_pos hl]
  simp only [getE_some hnr, getE_some hsv, getE_some hna,
    getE_some (show (upd next (rKey ax)
        (nr + (sv * dt + 1/2 * na * dt ^ 2))) (thetaKey ax) =
        some nth from by rw [upd_apply, if_neg d1]; exact hnth),
    getE_some hsw,
    getE_some (show (upd next (rKey ax)
        (nr + (sv * dt + 1/2 * na * dt ^ 2))) (alphaKey ax) =
        some nal from by rw [upd_apply, if_neg d3]; exact hnal),
    getE_some (show (upd (upd next (rKey ax)
          (nr + (sv * dt + 1/2 * na * dt ^ 2))) (thetaKey ax)
          (nth + (sw * dt + 1/2 * nal * dt ^ 2))) (vKey ax) =
        some nv from by
      rw [upd_apply, if_neg d6, upd_apply, if_neg d5]; exact hnv),
    getE_some hsa,
    getE_some (show (upd (upd (upd next (rKey ax)
          (nr + (sv * dt + 1/2 * na * dt ^ 2))) (thetaKey ax)
          (nth + (sw * dt + 1/2 * nal * dt ^ 2))) (vKey ax) (nv + sa * dt))
          (omegaKey ax) = some nw from by
      rw [upd_apply, if_neg d9, upd_apply, if_neg d8, upd_apply, if_neg d7]
      exact hnw),
    getE_some hsal, ok_bind, pure_ok]

/-- Evaluation of the central-difference branch of the per-axis
update. -/
lemma perAxis_verlet_eval (s : AState) (hist : List AState) (dt : ℚ)
    (next : AState) (ax : String) (hl : ¬hist.length = 1)
    (sr pr sa sth pth sal : ℚ)
    (hsr : s (rKey ax) = some sr)
    (hpr : (hist.getD (hist.length - 2) (fun _ => none)) (rKey ax) =
      some pr)
    (hsa : s (aKey ax) = some sa)
    (hsth : s (thetaKey ax) = some sth)
    (hpth : (hist.getD (hist.length - 2) (fun _ => none)) (thetaKey ax) =
      some pth)
    (hsal : s (alphaKey ax) = some sal)
    (d1 : rKey ax ≠ thetaKey ax)
    (d2 : thetaKey ax ≠ vKey ax) :
    perAxis s hist dt next ax =
      Except.ok
        (upd
          (upd
            (upd (upd next (rKey ax) (2 * sr - pr + sa * dt ^ 2))
              (thetaKey ax) (2 * sth - pth + sal * dt ^ 2))
            (vKey ax) ((2 * sr - pr + sa * dt ^ 2 - pr) / (2 * dt)))
          (omegaKey ax) ((2 * sth - pth + sal * dt ^ 2 - pth) / (2 * dt))) := by
  unfold perAxis
  rw [if_neg hl]
  simp only [getE_some hsr, getE_some hpr, getE_some hsa, getE_some hsth,
    getE_some hpth, getE_some hsal,
    getE_some (show (upd (upd next (rKey ax)
          (2 * sr - pr + sa * dt ^ 2)) (thetaKey ax)
          (2 * sth - pth + sal * dt ^ 2)) (rKey ax) =
        some (2 * sr - pr + sa * dt ^ 2) from by
      rw [upd_apply, if_neg d1, upd_apply, if_pos rfl]),
    getE_some (show (upd (upd (upd next (rKey ax)
          (2 * sr - pr + sa * dt ^ 2)) (thetaKey ax)
          (2 * sth - pth + sal * dt ^ 2)) (vKey ax)
          ((2 * sr - pr + sa * dt ^ 2 - pr) / (2 * dt))) (thetaKey ax) =
        some (2 * sth - pth + sal * dt ^ 2) from by
      rw [upd_apply, if_neg d2, upd_apply, if_pos rfl]),
    ok_bind, pure_ok]

/-- Claim C3 (confirmed): a successful kinematic update of
`BoAtSim.step` advances each axis by the forward-Euler bootstrap when
the history holds exactly the one just-appended snapshot, and by the
central difference against the snapshot two states back otherwise,
recovering velocity as the symmetric difference quotient. -/
theorem C3_two_branch_integration (s : AState) (hist : List AState)
    (dt : ℚ) (next : AState) (ax : String) (hax : ax ∈ AXES)
    (hok : integrateAxes s hist dt = Except.ok next)
    (r v a th om al : ℚ)
    (hr : s (rKey ax) = some r) (hv : s (vKey ax) = some v)
    (ha : s (aKey ax) = some a) (hth : s (thetaKey ax) = some th)
    (hom : s (omegaKey ax) = some om) (hal : s (alphaKey ax) = some al) :
    (hist.length = 1 →
      next (rKey ax) = some (r + (v * dt + 1/2 * a * dt ^ 2)) ∧
      next (thetaKey ax) = some (th + (om * dt + 1/2 * al * dt ^ 2)) ∧
      next (vKey ax) = some (v + a * dt) ∧
      next (omegaKey ax) = some (om + al * dt)) ∧
    (∀ rp thp : ℚ, 2 ≤ hist.length →
      (hist.getD (hist.length - 2) (fun _ => none)) (rKey ax) = some rp →
      (hist.getD (hist.length - 2) (fun _ => none)) (thetaKey ax) =
        some thp →
      next (rKey ax) = some (2 * r - rp + a * dt ^ 2) ∧
      next (thetaKey ax) = some (2 * th - thp + al * dt ^ 2) ∧
      next (vKey ax) = some ((2 * r - rp + a * dt ^ 2 - rp) / (2 * dt)) ∧
      next (omegaKey ax) =
        some ((2 * th - thp + al * dt ^ 2 - thp) / (2 * dt))) := by
  unfold integrateAxes at hok
  by_cases hc : hist.length < 1
  · rw [if_pos hc] at hok
    exact absurd hok (by simp [throw, throwThe, MonadExceptOf.throw])
  rw [if_neg hc, show AXES = ["x", "y", "z"] from rfl,
    List.foldlM_cons] at hok
  rcases bindE_ok.mp hok with ⟨n1, h1, hok2⟩
  rw [List.foldlM_cons] at hok2
  rcases bindE_ok.mp hok2 with ⟨n2, h2, hok3⟩
  rw [List.foldlM_cons] at hok3
  rcases bindE_ok.mp hok3 with ⟨n3, h3, hp⟩
  rw [List.foldlM_nil, pure_ok] at hp
  obtain rfl : n3 = next := (Except.ok.injEq _ _).mp hp
  have hax3 : ax = "x" ∨ ax = "y" ∨ ax = "z" := by simpa [AXES] using hax
  rcases hax3 with rfl | rfl | rfl
  · -- axis x: evaluated at the first stage, untouched by stages y and z
    constructor
    · intro hl1
      have e1 := perAxis_boot_eval s hist dt s "x" hl1 r th a al v om v om
        a al hr hth ha hal hv hom hv hom ha hal (by decide) (by decide)
        (by decide) (by decide) (by decide) (by decide) (by decide)
      have hn1 : n1 = upd (upd (upd (upd s (rKey "x")
          (r + (v * dt + 1/2 * a * dt ^ 2))) (thetaKey "x")
          (th + (om * dt + 1/2 * al * dt ^ 2))) (vKey "x") (v + a * dt))
          (omegaKey "x") (om + al * dt) := by
        rw [e1] at h1
        exact ((Except.ok.injEq _ _).mp h1).symm
      refine ⟨?_, ?_, ?_, ?_⟩ <;>
      · rw [perAxis_untouched s hist dt n2 n3 "z" h3 _ (by decide)
            (by decide) (by decide) (by decide),
          perAxis_untouched s hist dt n1 n2 "y" h2 _ (by decide)
            (by decide) (by decide) (by decide), hn1]
        simp +decide [upd_apply]
    · intro rp thp hl2 hrp hthp
      have hl : ¬hist.length = 1 := by omega
      have e1 := perAxis_verlet_eval s hist dt s "x" hl r rp a th thp al
        hr hrp ha hth hthp hal (by decide) (by decide)
      have hn1 : n1 = upd (upd (upd (upd s (rKey "x")
          (2 * r - rp + a * dt ^ 2)) (thetaKey "x")
          (2 * th - thp + al * dt ^ 2)) (vKey "x")
          ((2 * r - rp + a * dt ^ 2 - rp) / (2 * dt))) (omegaKey "x")
          ((2 * th - thp + al * dt ^ 2 - thp) / (2 * dt)) := by
        rw [e1] at h1
        exact ((Except.ok.injEq _ _).mp h1).symm
      refine ⟨?_, ?_, ?_, ?_⟩ <;>
      · rw [perAxis_untouched s hist dt n2 n3 "z" h3 _ (by decide)
            (by decide) (by decide) (by decide),
          perAxis_untouched s hist dt n1 n2 "y" h2 _ (by decide)
            (by decide) (by decide) (by decide), hn1]
        simp +decide [upd_apply]
  · -- axis y: stage x leaves its labels alone, stage z never touches them
    have t1 : ∀ k, k ≠ rKey "x" → k ≠ thetaKey "x" → k ≠ vKey "x" →
        k ≠ omegaKey "x" → n1 k = s k :=
      perAxis_untouched s hist dt s n1 "x" h1
    have tr : n1 (rKey "y") = some r := by
      rw [t1 _ (by decide) (by decide) (by decide) (by decide)]; exact hr
    have tth : n1 (thetaKey "y") = some th := by
      rw [t1 _ (by decide) (by decide) (by decide) (by decide)]; exact hth
    have ta : n1 (aKey "y") = some a := by
      rw [t1 _ (by decide) (by decide) (by decide) (by decide)]; exact ha
    have tal : n1 (alphaKey "y") = some al := by
      rw [t1 _ (by decide) (by decide) (by decide) (by decide)]; exact hal
    have tv : n1 (vKey "y") = some v := by
      rw [t1 _ (by decide) (by decide) (by decide) (by decide)]; exact hv
    have tom : n1 (omegaKey "y") = some om := by
      rw [t1 _ (by decide) (by decide) (by decide) (by decide)]; exact hom
    constructor
    · intro hl1
      have e2 := perAxis_boot_eval s hist dt n1 "y" hl1 r th a al v om v
        om a al tr tth ta tal tv tom hv hom ha hal (by decide) (by decide)
        (by decide) (by decide) (by decide) (by decide) (by decide)
      have hn2 : n2 = upd (upd (upd (upd n1 (rKey "y")
          (r + (v * dt + 1/2 * a * dt ^ 2))) (thetaKey "y")
          (th + (om * dt + 1/2 * al * dt ^ 2))) (vKey "y") (v + a * dt))
          (omegaKey "y") (om + al * dt) := by
        rw [e2] at h2
        exact ((Except.ok.injEq _ _).mp h2).symm
      refine ⟨?_, ?_, ?_, ?_⟩ <;>
      · rw [perAxis_untouched s hist dt n2 n3 "z" h3 _ (by decide)
            (by decide) (by decide) (by decide), hn2]
        simp +decide [upd_apply]
    · intro rp thp hl2 hrp hthp
      have hl : ¬hist.length = 1 := by omega
      have e2 := perAxis_verlet_eval s hist dt n1 "y" hl r rp a th thp al
        hr hrp ha hth hthp hal (by decide) (by decide)
      have hn2 : n2 = upd (upd (upd (upd n1 (rKey "y")
          (2 * r - rp + a * dt ^ 2)) (thetaKey "y")
          (2 * th - thp + al * dt ^ 2)) (vKey "y")
          ((2 * r - rp + a * dt ^ 2 - rp) / (2 * dt))) (omegaKey "y")
          ((2 * th - thp + al * dt ^ 2 - thp) / (2 * dt)) := by
        rw [e2] at h2
        exact ((Except.ok.injEq _ _).mp h2).symm
      refine ⟨?_, ?_, ?_, ?_⟩ <;>
      · rw [perAxis_untouched s hist dt n2 n3 "z" h3 _ (by decide)
            (by decide) (by decide) (by decide), hn2]
        simp +decide [upd_apply]
  · -- axis z: stages x and y leave its labels alone
    have t1 : ∀ k, k ≠ rKey "x" → k ≠ thetaKey "x" → k ≠ vKey "x" →
        k ≠ omegaKey "x" → n1 k = s k :=
      perAxis_untouched s hist dt s n1 "x" h1
    have t2 : ∀ k, k ≠ rKey "y" → k ≠ thetaKey "y" → k ≠ vKey "y" →
        k ≠ omegaKey "y" → n2 k = n1 k :=
      perAxis_untouched s hist dt n1 n2 "y" h2
    have tr : n2 (rKey "z") = some r := by
      rw [t2 _ (by decide) (by decide) (by decide) (by decide),
        t1 _ (by decide) (by decide) (by decide) (by decide)]
      exact hr
    have tth : n2 (thetaKey "z") = some th := by
      rw [t2 _ (by decide) (by decide) (by decide) (by decide),
        t1 _ (by decide) (by decide) (by decide) (by decide)]
      exact hth
    have ta : n2 (aKey "z") = some a := by
      rw [t2 _ (by decide) (by decide) (by decide) (by decide),
        t1 _ (by decide) (by decide) (by decide) (by decide)]
      exact ha
    have tal : n2 (alphaKey "z") = some al := by
      rw [t2 _ (by decide) (by decide) (by decide) (by decide),
        t1 _ (by decide) (by decide) (by decide) (by decide)]
      exact hal
    have tv : n2 (vKey "z") = some v := by
      rw [t2 _ (by decide) (by decide) (by decide) (by decide),
        t1 _ (by decide) (by decide) (by decide) (by decide)]
      exact hv
    have tom : n2 (omegaKey "z") = some om := by
      rw [t2 _ (by decide) (by decide) (by decide) (by decide),
        t1 _ (by decide) (by decide) (by decide) (by decide)]
      exact hom
    constructor
    · intro hl1
      have e3 := perAxis_boot_eval s hist dt n2 "z" hl1 r th a al v om v
        om a al tr tth ta tal tv tom hv hom ha hal (by decide) (by decide)
        (by decide) (by decide) (by decide) (by decide) (by decide)
      have hn3 : n3 = upd (upd (upd (upd n2 (rKey "z")
          (r + (v * dt + 1/2 * a * dt ^ 2))) (thetaKey "z")
          (th + (om * dt + 1/2 * al * dt ^ 2))) (vKey "z") (v + a * dt))
          (omegaKey "z") (om + al * dt) := by
        rw [e3] at h3
        exact ((Except.ok.injEq _ _).mp h3).symm
      refine ⟨?_, ?_, ?_, ?_⟩ <;>
      · rw [hn3]
        simp +decide [upd_apply]
    · intro rp thp hl2 hrp hthp
      have hl : ¬hist.length = 1 := by omega
      have e3 := perAxis_verlet_eval s hist dt n2 "z" hl r rp a th thp al
        hr hrp ha hth hthp hal (by decide) (by decide)
      have hn3 : n3 = upd (upd (upd (upd n2 (rKey "z")
          (2 * r - rp + a * dt ^ 2)) (thetaKey "z")
          (2 * th - thp + al * dt ^ 2)) (vKey "z")
          ((2 * r - rp + a * dt ^ 2 - rp) / (2 * dt))) (omegaKey "z")
          ((2 * th - thp + al * dt ^ 2 - thp) / (2 * dt)) := by
        rw [e3] at h3
        exact ((Except.ok.injEq _ _).mp h3).symm
      refine ⟨?_, ?_, ?_, ?_⟩ <;>
      · rw [hn3]
        simp +decide [upd_apply]

/-- The C3 theorem applied to the bootstrap step from `c3State`. -/
theorem C3_two_branch_integration_witness :
    (([c3State] : List AState).length = 1 →
      c3Next (rKey "x") = some (0 + (0 * 1 + 1/2 * 0 * 1 ^ 2)) ∧
      c3Next (thetaKey "x") = some (0 + (0 * 1 + 1/2 * 0 * 1 ^ 2)) ∧
      c3Next (vKey "x") = some (0 + 0 * 1) ∧
      c3Next (omegaKey "x") = some (0 + 0 * 1)) ∧
    (∀ rp thp : ℚ, 2 ≤ ([c3State] : List AState).length →
      (([c3State] : List AState).getD
        (([c3State] : List AState).length - 2) (fun _ => none))
          (rKey "x") = some rp →
      (([c3State] : List AState).getD
        (([c3State] : List AState).length - 2) (fun _ => none))
          (thetaKey "x") = some thp →
      c3Next (rKey "x") = some (2 * 0 - rp + 0 * 1 ^ 2) ∧
      c3Next (thetaKey "x") = some (2 * 0 - thp + 0 * 1 ^ 2) ∧
      c3Next (vKey "x") = some ((2 * 0 - rp + 0 * 1 ^ 2 - rp) / (2 * 1)) ∧
      c3Next (omegaKey "x") =
        some ((2 * 0 - thp + 0 * 1 ^ 2 - thp) / (2 * 1))) :=
  C3_two_branch_integration c3State [c3State] 1 c3Next "x" (by decide) rfl
    0 0 0 0 0 0 (by decide) (by decide) (by decide) (by decide) (by decide)
    (by decide)

/-! ## Claim C10 -/

/-- Claim C10 (confirmed): `declaredOnlyState` satisfies every label of
`MeshBuoyancy.required_state_labels`, yet lacks the centre-of-mass
offset label `c_x__boat`, and `compute_dynamics` fails on it with the
missing-key error for `c_x__boat` — the declared precondition is
incomplete at the public interface. -/
theorem C10_undeclared_com_dependency :
    (∀ l ∈ requiredStateLabels, (declaredOnlyState l).isSome) ∧
      declaredOnlyState (cKey "x") = none ∧
      ∀ (sp : SlicePlaneFn) (eps : ℚ) (rotOf : RotOfFn) (mesh : Mesh)
        (name : String) (dt : ℚ),
        computeDynamics sp eps rotOf mesh name declaredOnlyState dt =
          Except.error (Err.missingKey (cKey "x")) := by
  refine ⟨by decide, by decide, ?_⟩
  intro sp eps rotOf mesh name dt
  rfl

end PyBoAtSim
